import Mathlib

/-!
Shallow embedding of the 2025 eCTF satellite-TV decoder firmware
(Purdue-eCTF/2025-eCTF-design), together with proofs about the
time-keyed subscription key-tree engine, the flash-resident
subscription store, the payload cryptography envelope and the frame /
subscription pipelines.

Machine integers (`u64`, `u32`, `u8`) are modelled as `Nat`, with an
explicit `% 2 ^ 64` (etc.) wherever the source relies on wrapping
behaviour.  Byte strings are `List Nat`.  External crypto crates
(Ed25519, XChaCha20-Poly1305, the ChaCha20 block function) are
parameters of the definitions that use them: the repository calls into
those crates, so every theorem quantifies over the primitive.
-/

namespace Decoder

/-- `2 ^ 64`: one past the largest `u64`; the timestamp space size. -/
def U64_MOD : Nat := 2 ^ 64

/-- `KeySubtree` from `src/decoder/decoder/src/decoder_context.rs:199-206`:
one interior node of the GGM key tree, covering the inclusive timestamp
interval `[lowest_timestamp, highest_timestamp]` and carrying a 32-byte
node secret. -/
structure KeySubtree where
  lowest_timestamp : Nat
  highest_timestamp : Nat
  key : List Nat
  deriving Repr, DecidableEq, Inhabited

/-- `KeySubtree::contains` (`decoder_context.rs:210-212`):
`self.lowest_timestamp <= timestamp && timestamp <= self.highest_timestamp`. -/
def KeySubtree.contains (st : KeySubtree) (timestamp : Nat) : Bool :=
  decide (st.lowest_timestamp ≤ timestamp) && decide (timestamp ≤ st.highest_timestamp)

/-- The midpoint computation from the loop body of
`derive_decoder_key_for_timestamp` (`decode.rs:163-164`):
`region_size = highest - lowest; lower_midsection = lowest + (region_size >> 1)`.
`u64` subtraction here never underflows because the loop maintains
`lowest <= highest`, so plain `Nat` arithmetic is faithful. -/
def lowerMidsection (lo hi : Nat) : Nat := lo + (hi - lo) / 2

/-- The `while subtree.lowest_timestamp != subtree.highest_timestamp` loop of
`derive_decoder_key_for_timestamp` (`decode.rs:159-177`), returning the final
(leaf) node together with the list of nodes pushed onto the cache, in push
order.  One ChaCha20 block expands the 32-byte node secret into 64 bytes
(`compute_chacha_block`, `crypto.rs:84-91`), modelled by the parameter
`block`; bytes `..32` go to the lower half-interval and bytes `32..` to the
upper half-interval.  The loop guard is written `lowest < highest`: the
source's `lowest != highest` is equivalent under the `lowest <= highest`
invariant that every reachable call satisfies (with `lowest > highest` the
source's `u64` subtraction would panic). -/
def walkLoop (block : List Nat → List Nat) (st : KeySubtree) (timestamp : Nat) :
    KeySubtree × List KeySubtree :=
  if h : st.lowest_timestamp < st.highest_timestamp then
    let expanded_key := block st.key
    let lower_midsection := lowerMidsection st.lowest_timestamp st.highest_timestamp
    if timestamp ≤ lower_midsection then
      let next : KeySubtree :=
        ⟨st.lowest_timestamp, lower_midsection, expanded_key.take 32⟩
      let rest := walkLoop block next timestamp
      (rest.1, next :: rest.2)
    else
      let next : KeySubtree :=
        ⟨lower_midsection + 1, st.highest_timestamp, expanded_key.drop 32⟩
      let rest := walkLoop block next timestamp
      (rest.1, next :: rest.2)
  else
    (st, [])
termination_by st.highest_timestamp - st.lowest_timestamp
decreasing_by
  · simp only [lowerMidsection]; omega
  · simp only [lowerMidsection]; omega

/-- `SubscriptionEntry` as used by `decode.rs` and `subscribe.rs`
(built in `read_subscription`, `subscribe.rs:50-57`): the in-RAM
subscription with explicit subtree intervals.  `subtrees` models the
`[KeySubtree; 128]` array. -/
structure SubscriptionEntry where
  public_key : List Nat
  start_time : Nat
  end_time : Nat
  channel_id : Nat
  subtrees : List KeySubtree
  subtree_count : Nat
  deriving Repr, DecidableEq, Inhabited

/-- Modelled from the spec: `SubscriptionEntry::active_subtrees` is called by
`decode.rs:146` and `subscribe.rs:60` but its definition is not among the
source files.  Per the spec (§3: "`subtree_count` — number of active
subtrees"; "padding entries are ignored") it is the prefix of
`subtrees` of length `subtree_count`, matching how `read_subscription`
fills `subtrees[i]` for `i < subtree_count`. -/
def SubscriptionEntry.active_subtrees (s : SubscriptionEntry) : List KeySubtree :=
  s.subtrees.take s.subtree_count

/-- The decoder error type.  Modelled from the spec: the `DecoderError` enum
of the decoder's `main.rs` is not among the source files (the `main.rs`
present is an application-processor snapshot); variants follow the spec's
error taxonomy (§7) and the constructors used by `decode.rs`,
`subscribe.rs`, `crypto.rs` and `decoder_context.rs`.  `castError` is the
`bytemuck` cast failure and `msgError` a wire-protocol failure bubbled
through `?`. -/
inductive DecoderError where
  | invalidEncoderPayload
  | nonMonotonicTimestamp
  | invalidSubscription
  | invalidTimestamp
  | noTimestampFound
  | tooManySubscriptions
  | castError
  | msgError
  | cursorOversize (remaining : Nat)
  deriving Repr, DecidableEq

/-- `cache.cache_entries.iter().enumerate().rev().find(|(_, subtree)|
subtree.contains(timestamp))` from `derive_decoder_key_for_timestamp`
(`decode.rs:123-130`): the last (deepest) cache entry containing
`timestamp`, with its index. -/
def revFindContaining (cache : List KeySubtree) (timestamp : Nat) :
    Option (Nat × KeySubtree) :=
  cache.enum.reverse.find? (fun p => p.2.contains timestamp)

/-- `derive_decoder_key_for_timestamp` (`decode.rs:114-180`).  The
`ChannelCache`'s `cache_entries` stack (an `ArrayVec<[KeySubtree; 64]>`)
is modelled as a `List KeySubtree`, root first; the function returns the
derived key (or error) together with the cache contents it leaves behind.
The source's `assert!(subtree.contains(timestamp))` always holds (both
branches select a subtree by `contains`), so no panic case is modelled. -/
def derive_decoder_key_for_timestamp (block : List Nat → List Nat)
    (subscription : SubscriptionEntry) (cache : List KeySubtree) (timestamp : Nat) :
    Except DecoderError (List Nat) × List KeySubtree :=
  let start? : Option (KeySubtree × List KeySubtree) :=
    match cache with
    | [] => none
    | c0 :: _ =>
      if c0.contains timestamp then
        match revFindContaining cache timestamp with
        | some (i, subtree) => some (subtree, cache.take (i + 1))
        | none => none
      else
        none
  match start? with
  | some (subtree, kept) =>
    let walked := walkLoop block subtree timestamp
    (.ok walked.1.key, kept ++ walked.2)
  | none =>
    match subscription.active_subtrees.find? (fun tree => tree.contains timestamp) with
    | some subtree =>
      let walked := walkLoop block subtree timestamp
      (.ok walked.1.key, walked.2)
    | none =>
      (.error .noTimestampFound, [])

/-- The derivation walk as the specification words it: starting from a node
covering `[lo, hi]` with secret `key`, expand the secret into 64 bytes with
one ChaCha20 block, give bytes `0..32` to the lower half-interval
`[lo, lo + ((hi - lo) >> 1)]` and bytes `32..64` to the upper half-interval,
descend into the half containing `t`, and stop when `lowest == highest`
(written `lo < hi` for totality, equivalent under `lo <= hi`). -/
def specLeafKey (block : List Nat → List Nat) (lo hi : Nat) (key : List Nat)
    (t : Nat) : List Nat :=
  if h : lo < hi then
    let bytes := block key
    let mid := lo + (hi - lo) / 2
    if t ≤ mid then
      specLeafKey block lo mid (bytes.take 32) t
    else
      specLeafKey block (mid + 1) hi ((bytes.drop 32).take 32) t
  else
    key
termination_by hi - lo
decreasing_by
  · omega
  · omega

/-- A well-formedness property of subscriptions, established by
`read_subscription` (`subscribe.rs:59-66`, which asserts that the active
subtrees tile `[start_time, end_time]` contiguously and without overlap):
no timestamp is contained in two distinct active subtrees. -/
def SubscriptionEntry.uniqueCover (s : SubscriptionEntry) : Prop :=
  ∀ t r r', r ∈ s.active_subtrees → r' ∈ s.active_subtrees →
    r.contains t = true → r'.contains t = true → r = r'

/-- A sequence of `derive_decoder_key_for_timestamp` calls sharing one
`ChannelCache`, as successive `decode` requests do: each call starts from
the cache contents the previous call left behind.  Returns the list of
results. -/
def deriveSeq (block : List Nat → List Nat) (subscription : SubscriptionEntry) :
    List KeySubtree → List Nat → List (Except DecoderError (List Nat))
  | _, [] => []
  | cache, t :: ts =>
    let r := derive_decoder_key_for_timestamp block subscription cache t
    r.1 :: deriveSeq block subscription r.2 ts

/-- Consistency of a cache with its subscription: every cache entry derives,
for every timestamp it contains, the same leaf key as the subscription's
own subtree root for that timestamp (which `find?` locates). -/
def CacheConsistent (block : List Nat → List Nat)
    (subscription : SubscriptionEntry) (cache : List KeySubtree) : Prop :=
  ∀ e ∈ cache, ∀ t, e.contains t = true →
    ∃ r, subscription.active_subtrees.find? (fun tree => tree.contains t) = some r ∧
      (walkLoop block e t).1.key = (walkLoop block r t).1.key

/-- `size_of::<DecoderPayloadHeader>()` (`crypto.rs:9-15`): 64-byte Ed25519
signature, 24-byte XChaCha20 nonce, 16-byte Poly1305 tag. -/
def HEADER_SIZE : Nat := 104

/-- `SIGNATURE_LENGTH` from `ed25519_dalek`. -/
def SIGNATURE_LENGTH : Nat := 64

/-- `decrypt_decoder_payload` (`crypto.rs:35-71`).  `verify pk msg sig`
models `ed25519_dalek` signature verification and
`aead key nonce ad ct tag` models `XChaCha20Poly1305::decrypt_in_place_detached`
(returning the plaintext that replaces the ciphertext in place, or `none`
when the tag check fails); both crates are external to the repository. -/
def decrypt_decoder_payload (verify : List Nat → List Nat → List Nat → Bool)
    (aead : List Nat → List Nat → List Nat → List Nat → List Nat → Option (List Nat))
    (payload : List Nat) (associated_data_size : Nat)
    (symmetric_key public_key : List Nat) : Except DecoderError (List Nat) :=
  if payload.length < HEADER_SIZE + associated_data_size then
    .error .invalidEncoderPayload
  else
    let signature := payload.take SIGNATURE_LENGTH
    let chacha_nonce := (payload.drop 64).take 24
    let poly1305_tag := (payload.drop 88).take 16
    let message_to_verify := payload.drop SIGNATURE_LENGTH
    if verify public_key message_to_verify signature then
      let body := payload.drop HEADER_SIZE
      let ciphertext := body.take (body.length - associated_data_size)
      let associated_data := body.drop (body.length - associated_data_size)
      match aead symmetric_key chacha_nonce associated_data ciphertext poly1305_tag with
      | some plaintext => .ok plaintext
      | none => .error .invalidEncoderPayload
    else
      .error .invalidEncoderPayload

/-- `FrameData` (`decode.rs:24-33`): packed `{ frame_len: u8, frame_data: [u8; 64] }`. -/
structure FrameData where
  frame_len : Nat
  frame_data : List Nat
  deriving Repr, DecidableEq, Inhabited

/-- `bytemuck::try_from_bytes::<FrameData>` (`decode.rs:60`): the cast
succeeds iff the slice length equals `size_of::<FrameData>() = 65`
(alignment is 1); byte 0 is `frame_len`, bytes 1..65 are `frame_data`. -/
def frameDataFromBytes (bs : List Nat) : Option FrameData :=
  if bs.length = 65 then some ⟨bs.headD 0, bs.tail⟩ else none

/-- Outcome of the response-construction tail of `decode`: a typed error
(returned through `Result`), a panic (no typed error at all), or the
emitted response body. -/
inductive FrameOutcome where
  | typedError (e : DecoderError)
  | panicked
  | body (bytes : List Nat)
  deriving Repr, DecidableEq

/-- The tail of `decode` after successful decryption (`decode.rs:60-68`):
cast the plaintext to `FrameData`, then emit
`frame_data[..frame_len as usize]`.  The slice indexing is in bounds iff
`frame_len ≤ 64`; `decode` performs no explicit check, and `frame_len > 64`
panics (modelled as `panicked`). -/
def frameResponse (plaintext : List Nat) : FrameOutcome :=
  match frameDataFromBytes plaintext with
  | none => .typedError .castError
  | some frame_data =>
    if frame_data.frame_len ≤ 64 then .body (frame_data.frame_data.take frame_data.frame_len)
    else .panicked

/-- Little-endian interpretation of a byte list, first byte least
significant (`bytemuck` reads of packed integer fields on the
little-endian Cortex-M target). -/
def leNat (bs : List Nat) : Nat :=
  bs.foldr (fun b acc => b + 256 * acc) 0

/-- Modelled from the spec: the build-generated `ectf_params.rs` of the
decoder is not among the source files.  The emergency channel is channel 0
(spec §6 hardcodes `CHANNEL0_*` keys for it; the value itself is never
material to the theorems below). -/
def EMERGENCY_CHANNEL_ID : Nat := 0

/-- `Cursor` (`utils.rs:14-17`): a byte buffer plus a read offset. -/
structure Cursor where
  buf : List Nat
  offset : Nat
  deriving Repr, DecidableEq

/-- A failure of the subscribe pipeline: either a returned error value or a
panic (a failed `assert!`, which halts the device rather than returning). -/
inductive SubscribeFailure where
  | err (e : DecoderError)
  | panic
  deriving Repr, DecidableEq

/-- `Cursor::read_into` (`utils.rs:36-45`) as used through `read_value`
(`subscribe.rs:107-115`): read `n` bytes at the offset, failing with
`OversizeError(remaining)` when fewer than `n` bytes remain. -/
def Cursor.read_bytes (c : Cursor) (n : Nat) :
    Except SubscribeFailure (List Nat × Cursor) :=
  let remainder := c.buf.drop c.offset
  if remainder.length < n then
    .error (.err (.cursorOversize remainder.length))
  else
    .ok (remainder.take n, ⟨c.buf, c.offset + n⟩)

/-- The per-subtree loop of `read_subscription` (`subscribe.rs:33-48`): for
each of the `subtree_count` subtrees, read one depth byte, compute the
interval `[lowest, lowest + (1 << (64 - depth)) - 1]`, assert
`lowest <= highest`, then read the 32-byte node key.  `u8`/`u64`
arithmetic is modelled with release-mode wrapping semantics (`64 - depth`
wraps mod 256, the shift amount is masked mod 64, additions wrap mod
2^64); in a debug build the out-of-range cases would panic instead, and
no reachable input exercises the difference for validated depths. -/
def readSubtreesLoop (c : Cursor) (current : Nat) :
    Nat → Except SubscribeFailure (List KeySubtree × Cursor)
  | 0 => .ok ([], c)
  | n + 1 =>
    let lowest_timestamp := current
    match c.read_bytes 1 with
    | .error e => .error e
    | .ok (depthBytes, c) =>
      let depth := depthBytes.headD 0
      let highest_timestamp :=
        (lowest_timestamp + 2 ^ (((64 + 256 - depth % 256) % 256) % 64) + (U64_MOD - 1)) %
          U64_MOD
      if lowest_timestamp ≤ highest_timestamp then
        match c.read_bytes 32 with
        | .error e => .error e
        | .ok (key, c) =>
          match readSubtreesLoop c ((highest_timestamp + 1) % U64_MOD) n with
          | .error e => .error e
          | .ok (rest, c) =>
            .ok (⟨lowest_timestamp, highest_timestamp, key⟩ :: rest, c)
      else
        .error .panic

/-- The adjacency assert of `read_subscription` (`subscribe.rs:63-66`):
every neighbouring pair of active subtrees satisfies
`lower.highest_timestamp == higher.lowest_timestamp - 1` (wrapping). -/
def adjacentOk : List KeySubtree → Bool
  | a :: b :: rest =>
    decide (a.highest_timestamp = (b.lowest_timestamp + (U64_MOD - 1)) % U64_MOD) &&
      adjacentOk (b :: rest)
  | _ => true

/-- The trailing asserts of `read_subscription` (`subscribe.rs:59-66`):
`active[0]` starts at `start_time`, the last active subtree ends at
`end_time`, and neighbouring subtrees are adjacent; indexing `active[0]`
(or `.last().unwrap()`) of an empty list panics. -/
def coverageCheck (subscription : SubscriptionEntry) :
    Except SubscribeFailure SubscriptionEntry :=
  let active := subscription.active_subtrees
  match active.head?, active.getLast? with
  | some first, some last =>
    if first.lowest_timestamp = subscription.start_time then
      if last.highest_timestamp = subscription.end_time then
        if adjacentOk active then .ok subscription else .error .panic
      else .error .panic
    else .error .panic
  | _, _ => .error .panic

/-- `read_subscription` (`subscribe.rs:10-69`).  Failed `assert!`s are
`.panic`; cursor exhaustion is the returned `OversizeError`.  The source
keeps a 128-entry array with the first `subtree_count` slots filled;
`subtrees` here holds exactly those filled slots (`active_subtrees` of the
result is unchanged by this). -/
def read_subscription (data : List Nat) : Except SubscribeFailure SubscriptionEntry :=
  let c : Cursor := ⟨data, 0⟩
  match c.read_bytes 32 with
  | .error e => .error e
  | .ok (public_key, c) =>
    match c.read_bytes 8 with
    | .error e => .error e
    | .ok (startBytes, c) =>
      let start_time := leNat startBytes
      match c.read_bytes 8 with
      | .error e => .error e
      | .ok (endBytes, c) =>
        let end_time := leNat endBytes
        if start_time ≤ end_time then
          match c.read_bytes 4 with
          | .error e => .error e
          | .ok (cidBytes, c) =>
            let channel_id := leNat cidBytes
            if channel_id = EMERGENCY_CHANNEL_ID then .error .panic
            else
              match c.read_bytes 1 with
              | .error e => .error e
              | .ok (scBytes, c) =>
                let subtree_count := leNat scBytes
                if subtree_count ≤ 128 then
                  match readSubtreesLoop c start_time subtree_count with
                  | .error e => .error e
                  | .ok (subtrees, _c) =>
                    coverageCheck
                      ⟨public_key, start_time, end_time, channel_id, subtrees,
                        subtree_count⟩
                else .error .panic
        else .error .panic

/-- The subscription plaintext layout the code actually implements, as a
direct offset-indexed description (the amended claim C5): the per-subtree
records are interleaved `depth:u8 ‖ node_key[32]` starting at offset
`53 + 33 * i`. -/
def layoutSubtrees (data : List Nat) : Nat → Nat → Nat →
    Except SubscribeFailure (List KeySubtree)
  | _, _, 0 => .ok []
  | off, current, n + 1 =>
    if data.length - off < 1 then .error (.err (.cursorOversize (data.length - off)))
    else
      let depth := data.getD off 0
      let highest :=
        (current + 2 ^ (((64 + 256 - depth % 256) % 256) % 64) + (U64_MOD - 1)) % U64_MOD
      if current ≤ highest then
        if data.length - (off + 1) < 32 then
          .error (.err (.cursorOversize (data.length - (off + 1))))
        else
          match layoutSubtrees data (off + 33) ((highest + 1) % U64_MOD) n with
          | .error e => .error e
          | .ok rest => .ok (⟨current, highest, (data.drop (off + 1)).take 32⟩ :: rest)
      else
        .error .panic

/-- The parse of the subscription plaintext stated directly by byte offsets
(the amended claim C5):
`public_key = data[0..32]`, `start_time = LE64 data[32..40]`,
`end_time = LE64 data[40..48]`, `channel_id = LE32 data[48..52]`,
`subtree_count = data[52]`, then `subtree_count` interleaved
`(depth, node_key)` records; accepted iff long enough,
`start_time ≤ end_time`, `channel_id` is not the emergency channel,
`subtree_count ≤ 128`, every subtree interval is non-wrapping, and the
active subtrees contiguously tile `[start_time, end_time]`. -/
def layoutParse (data : List Nat) : Except SubscribeFailure SubscriptionEntry :=
  if data.length < 32 then .error (.err (.cursorOversize data.length))
  else if data.length - 32 < 8 then .error (.err (.cursorOversize (data.length - 32)))
  else if data.length - 40 < 8 then .error (.err (.cursorOversize (data.length - 40)))
  else
    let start_time := leNat ((data.drop 32).take 8)
    let end_time := leNat ((data.drop 40).take 8)
    if start_time ≤ end_time then
      if data.length - 48 < 4 then .error (.err (.cursorOversize (data.length - 48)))
      else
        let channel_id := leNat ((data.drop 48).take 4)
        if channel_id = EMERGENCY_CHANNEL_ID then .error .panic
        else if data.length - 52 < 1 then
          .error (.err (.cursorOversize (data.length - 52)))
        else
          let subtree_count := data.getD 52 0
          if subtree_count ≤ 128 then
            match layoutSubtrees data 53 start_time subtree_count with
            | .error e => .error e
            | .ok subtrees =>
              coverageCheck
                ⟨data.take 32, start_time, end_time, channel_id, subtrees, subtree_count⟩
          else .error .panic
    else .error .panic

/-- Modelled from the spec (§4.4): the channel-id-keyed slot update invoked
by `subscribe` (`subscribe.rs:100`).  The `decoder_context.rs` present in
the source tree is a later snapshot storing `CompressedSubscriptionEntry`
(embedded separately below as `update_subscription`); the
`SubscriptionEntry` version it calls follows the same policy: overwrite
the slot already holding this channel id, else the first empty slot, else
fail with `TooManySubscriptions`. -/
def update_subscription_entry (slots : List (Option SubscriptionEntry))
    (sub : SubscriptionEntry) : Except DecoderError (List (Option SubscriptionEntry)) :=
  match slots.findIdx? (fun s =>
      match s with
      | some e => e.channel_id == sub.channel_id
      | none => false) with
  | some i => .ok (slots.set i (some sub))
  | none =>
    match slots.findIdx? (fun s => s.isNone) with
    | some i => .ok (slots.set i (some sub))
    | none => .error .tooManySubscriptions

/-- The subscribe pipeline from the decrypted plaintext on
(`subscribe.rs:98-100`): parse with `read_subscription`, then commit with
the store update; a parse failure (returned error or panic) writes
nothing. -/
def subscribe_after_decrypt (slots : List (Option SubscriptionEntry))
    (plaintext : List Nat) :
    List (Option SubscriptionEntry) × Except SubscribeFailure Unit :=
  match read_subscription plaintext with
  | .error f => (slots, .error f)
  | .ok entry =>
    match update_subscription_entry slots entry with
    | .error e => (slots, .error (.err e))
    | .ok slots2 => (slots2, .ok ())

/-- `CompressedSubscriptionEntry` (`decoder_context.rs:117-132`): the
flash-persisted subscription form.  `depths` models the `[u8; 128]` array
and `node_keys` the `[[u8; 32]; 128]` array. -/
structure CompressedSubscriptionEntry where
  public_key : List Nat
  start_time : Nat
  channel_id : Nat
  subtree_count : Nat
  depths : List Nat
  node_keys : List (List Nat)
  deriving Repr, DecidableEq, Inhabited

/-- The per-node interval offset of `CompressedSubscriptionEntry::end_time`
and `get_subtree` (`decoder_context.rs:148-152`, `173-177`):
`if depth == 0 { u64::MAX } else { (1 << (64 - depth)) - 1 }`.
For `0 < depth ≤ 64` this is `2^(64-depth) - 1`; for `depth > 64` the
release-build `u8` subtraction wraps and the shift is masked mod 64
(a debug build would panic; no validated subscription stores such depths). -/
def nodeOffset (depth : Nat) : Nat :=
  if depth = 0 then U64_MOD - 1
  else 2 ^ (((64 + 256 - depth % 256) % 256) % 64) - 1

/-- The loop of `CompressedSubscriptionEntry::end_time`
(`decoder_context.rs:142-156`): starting from `start_time`, for each
active depth compute `highest = lowest + offset` and continue at
`highest.wrapping_add(1)`; `u64` addition wraps mod `2^64`. -/
def end_time_loop (current : Nat) : List Nat → Nat
  | [] => current
  | depth :: rest =>
    let highest := (current + nodeOffset depth) % U64_MOD
    end_time_loop ((highest + 1) % U64_MOD) rest

/-- `CompressedSubscriptionEntry::end_time` (`decoder_context.rs:141-160`):
walk the active depths, then undo the final wrap with
`current_timestamp.wrapping_sub(1)`. -/
def CompressedSubscriptionEntry.end_time (s : CompressedSubscriptionEntry) : Nat :=
  (end_time_loop s.start_time (s.depths.take s.subtree_count) + (U64_MOD - 1)) % U64_MOD

/-- `DecoderChannelInfoResult` (`decoder_context.rs:295-301`). -/
structure DecoderChannelInfoResult where
  channel_id : Nat
  start_time : Nat
  end_time : Nat
  deriving Repr, DecidableEq, Inhabited

/-- `DecoderContext::list_channels` (`decoder_context.rs:474-488`): one
result per slot whose flash entry holds an object, in slot order.  A slot
is `some sub` when its flash page's magic matches (`FlashEntry::get`). -/
def list_channels (slots : List (Option CompressedSubscriptionEntry)) :
    List DecoderChannelInfoResult :=
  slots.filterMap (fun s =>
    s.map (fun sub => ⟨sub.channel_id, sub.start_time, sub.end_time⟩))

/-- `DecoderContext::get_channel_info_for_id` (`decoder_context.rs:415-419`)
as a slot index: the first slot whose occupant has the given channel id. -/
def get_channel_info_index (slots : List (Option CompressedSubscriptionEntry))
    (channel_id : Nat) : Option Nat :=
  slots.findIdx? (fun s =>
    match s with
    | some e => e.channel_id == channel_id
    | none => false)

/-- `DecoderContext::find_empty_channel_info` (`decoder_context.rs:421-425`)
as a slot index: the first slot with no occupant. -/
def find_empty_index (slots : List (Option CompressedSubscriptionEntry)) : Option Nat :=
  slots.findIdx? (fun s => s.isNone)

/-- `DecoderContext::update_subscription` (`decoder_context.rs:444-469`):
overwrite the slot holding this channel id, else the first empty slot,
else fail with `TooManySubscriptions`.  (The ICC disable/enable around the
flash write has no observable effect on the store contents and is not
modelled.) -/
def update_subscription (slots : List (Option CompressedSubscriptionEntry))
    (subscription : CompressedSubscriptionEntry) :
    Except DecoderError (List (Option CompressedSubscriptionEntry)) :=
  match get_channel_info_index slots subscription.channel_id with
  | some i => .ok (slots.set i (some subscription))
  | none =>
    match find_empty_index slots with
    | some i => .ok (slots.set i (some subscription))
    | none => .error .tooManySubscriptions

/-- The channel ids of the occupied slots, in slot order. -/
def occupiedIds (slots : List (Option CompressedSubscriptionEntry)) : List Nat :=
  (slots.filterMap id).map CompressedSubscriptionEntry.channel_id

/-- The timestamp-interval width that claim C8 assigns to a node of depth
`d`: `2^(64-d)` timestamps, the full `2^64` range for `d = 0`. -/
def specDepthSize (depth : Nat) : Nat :=
  if depth = 0 then U64_MOD else 2 ^ (64 - depth)

/-- The end time as claim C8 words it: the inclusive upper bound of the
last implied interval, `start + (sum of the interval sizes) - 1`, with
wrapping arithmetic. -/
def specEndTime (s : CompressedSubscriptionEntry) : Nat :=
  (s.start_time + ((s.depths.take s.subtree_count).map specDepthSize).sum +
    (U64_MOD - 1)) % U64_MOD

/-- `FrameAssociatedData` (`decode.rs:16-21`): packed
`{ timestamp: u64, channel_number: u8 }`, 9 bytes at the payload tail. -/
structure FrameAssociatedData where
  timestamp : Nat
  channel_number : Nat
  deriving Repr, DecidableEq, Inhabited

/-- `get_decoder_payload_associated_data::<FrameAssociatedData>`
(`crypto.rs:74-81`): fails when the payload is shorter than the header
plus 9 bytes, else reinterprets the trailing 9 bytes (timestamp
little-endian in bytes 0..8, channel number byte 8). -/
def get_frame_associated_data (payload : List Nat) :
    Except DecoderError FrameAssociatedData :=
  if payload.length < HEADER_SIZE + 9 then .error .invalidEncoderPayload
  else
    let associated_data := payload.drop (payload.length - 9)
    .ok ⟨leNat (associated_data.take 8), associated_data.getD 8 0⟩

/-- The decode-relevant decoder state (`decoder_context.rs:304-315`): the
occupied subscription slots with their RAM channel caches, and
`last_decoded_timestamp`.  A `ChannelCache`'s parsed verifying key always
equals the stored subscription's `public_key` (it is built from it), so
only the cache-entry stack is carried. -/
structure DecoderContext where
  subscriptions : List (SubscriptionEntry × List KeySubtree)
  last_decoded_timestamp : Option Nat
  deriving Repr, DecidableEq, Inhabited

/-- Result of one `decode` call: `Ok(())`, a returned `DecoderError`, or a
panic (the out-of-bounds frame slice). -/
inductive DecodeOutcome where
  | ok
  | err (e : DecoderError)
  | panicked
  deriving Repr, DecidableEq

/-- `get_keys_for_channel` (`decode.rs:76-109`): hardcoded keys for the
emergency channel; otherwise look up the channel's subscription
(`InvalidSubscription` if absent), range-check the timestamp
(`InvalidTimestamp`), then derive the per-timestamp key, mutating the
channel cache in place (also when derivation fails). -/
def get_keys_for_channel (block : List Nat → List Nat)
    (channel0Key emergencyPubKey : List Nat)
    (context : DecoderContext) (channel_id : Nat) (timestamp : Nat) :
    Except DecoderError (List Nat × List Nat) × DecoderContext :=
  if channel_id = EMERGENCY_CHANNEL_ID then
    (.ok (channel0Key, emergencyPubKey), context)
  else
    match context.subscriptions.findIdx? (fun p => p.1.channel_id == channel_id) with
    | none => (.error .invalidSubscription, context)
    | some i =>
      let subscription := (context.subscriptions.getD i default).1
      let cache := (context.subscriptions.getD i default).2
      if timestamp < subscription.start_time ∨ subscription.end_time < timestamp then
        (.error .invalidTimestamp, context)
      else
        let derived := derive_decoder_key_for_timestamp block subscription cache timestamp
        let context2 := { context with
          subscriptions := context.subscriptions.set i (subscription, derived.2) }
        match derived.1 with
        | .ok key => (.ok (key, subscription.public_key), context2)
        | .error e => (.error e, context2)

/-- `decode` (`decode.rs:36-72`): extract the associated data, reject
non-monotonic timestamps before any key work, resolve keys, verify and
decrypt, cast to `FrameData`, set `last_decoded_timestamp`, then build and
write the response (`writeOk` is the outcome of the interactive
`Message::write`, which can fail on a bad acknowledgement and surfaces as
a returned error). -/
def decode (verify : List Nat → List Nat → List Nat → Bool)
    (aead : List Nat → List Nat → List Nat → List Nat → List Nat → Option (List Nat))
    (block : List Nat → List Nat) (channel0Key emergencyPubKey : List Nat)
    (writeOk : Bool) (context : DecoderContext) (encoded_frame : List Nat) :
    DecoderContext × DecodeOutcome :=
  match get_frame_associated_data encoded_frame with
  | .error e => (context, .err e)
  | .ok frame_info =>
    if context.last_decoded_timestamp.any
        (fun last_decoded => decide (frame_info.timestamp ≤ last_decoded)) then
      (context, .err .nonMonotonicTimestamp)
    else
      match get_keys_for_channel block channel0Key emergencyPubKey context
          frame_info.channel_number frame_info.timestamp with
      | (.error e, context2) => (context2, .err e)
      | (.ok (symmetric_key, public_key), context2) =>
        match decrypt_decoder_payload verify aead encoded_frame 9
            symmetric_key public_key with
        | .error e => (context2, .err e)
        | .ok frame_bytes =>
          match frameDataFromBytes frame_bytes with
          | none => (context2, .err .castError)
          | some frame_data =>
            let context3 := { context2 with
              last_decoded_timestamp := some frame_info.timestamp }
            if frame_data.frame_len ≤ 64 then
              if writeOk then (context3, .ok) else (context3, .err .msgError)
            else
              (context3, .panicked)

/-- `FLASH_PAGE_SIZE` (`max78000_hal/src/flash.rs:8`). -/
def FLASH_PAGE_SIZE : Nat := 0x2000

/-- `FLASH_ENTRY_MAGIC` (`decoder_context.rs:17`). -/
def FLASH_ENTRY_MAGIC : Nat := 0x11aa0055

/-- `FlashEntry::status_address` relative to the page start
(`decoder_context.rs:53-55`): `FLASH_PAGE_SIZE - 16`. -/
def STATUS_OFFSET : Nat := FLASH_PAGE_SIZE - 16

/-- One flash page as a byte map: offset to byte value. -/
def PageBytes : Type := Nat → Nat

/-- A page erase (`Flash::erase_page`, `flash.rs:127-150`): every byte of
the page becomes `0xff`. -/
def erasePage : PageBytes → PageBytes := fun _ _ => 0xff

/-- One 16-byte-aligned programming operation (`Flash::write16`,
`flash.rs:152-185`), generalized to any byte string: the bytes `bs` land
at offsets `off ..`, the rest of the page is untouched. -/
def writeBytesAt (off : Nat) (bs : List Nat) (p : PageBytes) : PageBytes :=
  fun i => if off ≤ i ∧ i < off + bs.length then bs.getD (i - off) 0 else p i

/-- `data` padded with zeros to a multiple of 16, as `Flash::write`
(`flash.rs:187-213`) pads its final partial chunk. -/
def padTo16 (data : List Nat) : List Nat :=
  data ++ List.replicate ((16 - data.length % 16) % 16) 0

/-- The sequence of 16-byte programming operations `Flash::write` issues
for `data` at page offset 0: chunk `j` lands at offset `16 * j`. -/
def writeOps (data : List Nat) : List (PageBytes → PageBytes) :=
  (List.range ((padTo16 data).length / 16)).map
    (fun j => writeBytesAt (16 * j) (((padTo16 data).drop (16 * j)).take 16))

/-- The 16 bytes `Flash::write` programs for the status word:
`FLASH_ENTRY_MAGIC.to_ne_bytes()` (little-endian on this target) padded
with zeros. -/
def statusWordBytes : List Nat :=
  [0x55, 0x00, 0xaa, 0x11] ++ List.replicate 12 0

/-- `FlashEntry::set` (`decoder_context.rs:85-113`) as its sequence of
atomic flash operations, in program order: erase the page first, then
program the object body, and program the validity magic word (at page
offset `FLASH_PAGE_SIZE - 16`) last. -/
def setOps (data : List Nat) : List (PageBytes → PageBytes) :=
  erasePage :: writeOps data ++ [writeBytesAt STATUS_OFFSET statusWordBytes]

/-- Run a prefix of the operation sequence: the state of the page after a
power-cut at that point. -/
def applyOps (ops : List (PageBytes → PageBytes)) (p : PageBytes) : PageBytes :=
  ops.foldl (fun acc op => op acc) p

/-- `FlashEntry::status` (`decoder_context.rs:58-65`): the little-endian
`u32` at page offset `FLASH_PAGE_SIZE - 16`. -/
def FlashEntry.status (p : PageBytes) : Nat :=
  p STATUS_OFFSET + 256 * p (STATUS_OFFSET + 1) + 65536 * p (STATUS_OFFSET + 2) +
    16777216 * p (STATUS_OFFSET + 3)

/-- `FlashEntry::has_object` (`decoder_context.rs:67-69`). -/
def FlashEntry.has_object (p : PageBytes) : Bool :=
  FlashEntry.status p == FLASH_ENTRY_MAGIC

/-- `FlashEntry::get` (`decoder_context.rs:71-78`) for an object of
`objSize` bytes: `Some` of the first `objSize` bytes of the page iff the
status word equals the magic. -/
def FlashEntry.get (objSize : Nat) (p : PageBytes) : Option (List Nat) :=
  if FlashEntry.has_object p then some ((List.range objSize).map p) else none

theorem walkLoop_key_eq_specLeafKey (block : List Nat → List Nat)
    (hblock : ∀ k, (block k).length = 64) :
    ∀ st t, (walkLoop block st t).1.key =
      specLeafKey block st.lowest_timestamp st.highest_timestamp st.key t := by
  have main : ∀ n st t, st.highest_timestamp - st.lowest_timestamp < n →
      (walkLoop block st t).1.key =
        specLeafKey block st.lowest_timestamp st.highest_timestamp st.key t := by
    intro n
    induction n with
    | zero => intro st t hn; omega
    | succ n ih =>
      intro st t hn
      rw [walkLoop, specLeafKey]
      by_cases h : st.lowest_timestamp < st.highest_timestamp
      · simp only [dif_pos h]
        by_cases ht : t ≤ lowerMidsection st.lowest_timestamp st.highest_timestamp
        · have ht' : t ≤ st.lowest_timestamp +
              (st.highest_timestamp - st.lowest_timestamp) / 2 := ht
          simp only [if_pos ht, if_pos ht']
          apply ih _ t
          simp only [lowerMidsection] at *
          omega
        · have ht' : ¬ t ≤ st.lowest_timestamp +
              (st.highest_timestamp - st.lowest_timestamp) / 2 := ht
          simp only [if_neg ht, if_neg ht']
          have hdrop : ((block st.key).drop 32).take 32 = (block st.key).drop 32 := by
            apply List.take_of_length_le
            simp [hblock st.key]
          rw [hdrop]
          apply ih _ t
          simp only [lowerMidsection] at *
          omega
      · simp only [dif_neg h]
  intro st t
  exact main (st.highest_timestamp - st.lowest_timestamp + 1) st t (by omega)

/-- C1: for every subscription and every timestamp contained in one of its
active subtrees, `derive_decoder_key_for_timestamp` (from a cleared cache)
returns the leaf key obtained by starting at the subtree root covering the
timestamp and repeatedly expanding the node secret into 64 bytes with one
ChaCha20 block, giving bytes 0..32 to the lower half-interval
`[lo, lo + ((hi - lo) >> 1)]` and bytes 32..64 to the upper half-interval,
descending into the half containing the timestamp until
`lowest == highest`; and the midpoint computation `lo + ((hi - lo) >> 1)`
never overflows for any `lo ≤ hi < 2^64`. -/
theorem derive_key_matches_spec_walk (block : List Nat → List Nat)
    (hblock : ∀ k, (block k).length = 64)
    (subscription : SubscriptionEntry) (timestamp : Nat) (root : KeySubtree)
    (hroot : subscription.active_subtrees.find? (fun tree => tree.contains timestamp) =
      some root) :
    (derive_decoder_key_for_timestamp block subscription [] timestamp).1 =
      .ok (specLeafKey block root.lowest_timestamp root.highest_timestamp root.key
        timestamp)
    ∧ ∀ lo hi : Nat, lo ≤ hi → hi < U64_MOD →
        lowerMidsection lo hi ≤ hi ∧ lowerMidsection lo hi < U64_MOD := by
  constructor
  · simp only [derive_decoder_key_for_timestamp, hroot]
    exact congrArg Except.ok (walkLoop_key_eq_specLeafKey block hblock root timestamp)
  · intro lo hi hle hlt
    simp only [lowerMidsection, U64_MOD] at *
    omega

/-- Witness for `derive_key_matches_spec_walk`: a one-subtree subscription
covering `[0, 3]`, queried at timestamp 2, with a concrete block function. -/
theorem derive_key_matches_spec_walk_witness :
    (derive_decoder_key_for_timestamp (fun _ => List.range 64)
        ⟨[], 0, 3, 7, [⟨0, 3, [9]⟩], 1⟩ [] 2).1 =
      .ok (specLeafKey (fun _ => List.range 64) 0 3 [9] 2)
    ∧ ∀ lo hi : Nat, lo ≤ hi → hi < U64_MOD →
        lowerMidsection lo hi ≤ hi ∧ lowerMidsection lo hi < U64_MOD :=
  derive_key_matches_spec_walk (fun _ => List.range 64) (fun k => by simp)
    ⟨[], 0, 3, 7, [⟨0, 3, [9]⟩], 1⟩ 2 ⟨0, 3, [9]⟩ (by decide)

theorem walkLoop_lower_child (block : List Nat → List Nat) (st : KeySubtree)
    (t' : Nat) (h : st.lowest_timestamp < st.highest_timestamp)
    (hc : t' ≤ lowerMidsection st.lowest_timestamp st.highest_timestamp) :
    (walkLoop block st t').1 =
      (walkLoop block
        ⟨st.lowest_timestamp, lowerMidsection st.lowest_timestamp st.highest_timestamp,
          (block st.key).take 32⟩ t').1 := by
  rw [walkLoop]
  simp only [dif_pos h, if_pos hc]

theorem walkLoop_upper_child (block : List Nat → List Nat) (st : KeySubtree)
    (t' : Nat) (h : st.lowest_timestamp < st.highest_timestamp)
    (hc : ¬ t' ≤ lowerMidsection st.lowest_timestamp st.highest_timestamp) :
    (walkLoop block st t').1 =
      (walkLoop block
        ⟨lowerMidsection st.lowest_timestamp st.highest_timestamp + 1,
          st.highest_timestamp, (block st.key).drop 32⟩ t').1 := by
  rw [walkLoop]
  simp only [dif_pos h, if_neg hc]

/-- Every node pushed onto the cache during a walk covers a subinterval of
the starting node, and deriving from it (for any timestamp it contains)
reaches the same leaf as deriving from the starting node. -/
theorem walkLoop_pushed (block : List Nat → List Nat) :
    ∀ st t, ∀ e ∈ (walkLoop block st t).2,
      (st.lowest_timestamp ≤ e.lowest_timestamp ∧
        e.highest_timestamp ≤ st.highest_timestamp) ∧
      ∀ t', e.contains t' = true →
        (walkLoop block e t').1 = (walkLoop block st t').1 := by
  have main : ∀ n st t, st.highest_timestamp - st.lowest_timestamp < n →
      ∀ e ∈ (walkLoop block st t).2,
        (st.lowest_timestamp ≤ e.lowest_timestamp ∧
          e.highest_timestamp ≤ st.highest_timestamp) ∧
        ∀ t', e.contains t' = true →
          (walkLoop block e t').1 = (walkLoop block st t').1 := by
    intro n
    induction n with
    | zero => intro st t hn; omega
    | succ n ih =>
      intro st t hn e he
      rw [walkLoop] at he
      by_cases h : st.lowest_timestamp < st.highest_timestamp
      · simp only [dif_pos h] at he
        by_cases ht : t ≤ lowerMidsection st.lowest_timestamp st.highest_timestamp
        · simp only [if_pos ht, List.mem_cons] at he
          rcases he with rfl | he
          · refine ⟨⟨le_refl _, by simp only [lowerMidsection]; omega⟩, ?_⟩
            intro t' hc'
            simp only [KeySubtree.contains, Bool.and_eq_true, decide_eq_true_eq] at hc'
            exact (walkLoop_lower_child block st t' h hc'.2).symm
          · have hrec := ih ⟨st.lowest_timestamp,
              lowerMidsection st.lowest_timestamp st.highest_timestamp,
              (block st.key).take 32⟩ t
              (by simp only [lowerMidsection] at *; omega) e he
            refine ⟨⟨hrec.1.1, le_trans hrec.1.2 (by simp only [lowerMidsection]; omega)⟩, ?_⟩
            intro t' hc'
            rw [hrec.2 t' hc']
            apply (walkLoop_lower_child block st t' h ?_).symm
            simp only [KeySubtree.contains, Bool.and_eq_true, decide_eq_true_eq] at hc'
            calc t' ≤ e.highest_timestamp := hc'.2
              _ ≤ _ := hrec.1.2
        · simp only [if_neg ht, List.mem_cons] at he
          rcases he with rfl | he
          · refine ⟨⟨by simp only [lowerMidsection]; omega, le_refl _⟩, ?_⟩
            intro t' hc'
            simp only [KeySubtree.contains, Bool.and_eq_true, decide_eq_true_eq] at hc'
            exact (walkLoop_upper_child block st t' h (by omega)).symm
          · have hrec := ih ⟨lowerMidsection st.lowest_timestamp st.highest_timestamp + 1,
              st.highest_timestamp, (block st.key).drop 32⟩ t
              (by simp only [lowerMidsection] at *; omega) e he
            refine ⟨⟨le_trans (by simp only [lowerMidsection]; omega) hrec.1.1, hrec.1.2⟩, ?_⟩
            intro t' hc'
            rw [hrec.2 t' hc']
            apply (walkLoop_upper_child block st t' h ?_).symm
            simp only [KeySubtree.contains, Bool.and_eq_true, decide_eq_true_eq] at hc'
            have : lowerMidsection st.lowest_timestamp st.highest_timestamp + 1 ≤ t' :=
              le_trans hrec.1.1 hc'.1
            omega
      · simp only [dif_neg h, List.not_mem_nil] at he
  intro st t
  exact main (st.highest_timestamp - st.lowest_timestamp + 1) st t (by omega)

theorem find?_eq_some_of_unique {l : List KeySubtree} {p : KeySubtree → Bool}
    {e : KeySubtree} (hmem : e ∈ l) (hpe : p e = true)
    (huniq : ∀ x ∈ l, p x = true → x = e) :
    l.find? p = some e := by
  induction l with
  | nil => cases hmem
  | cons x xs ih =>
    by_cases hx : p x
    · rw [List.find?_cons_of_pos _ hx]
      exact congrArg some (huniq x (List.mem_cons_self x xs) hx)
    · rw [List.find?_cons_of_neg _ hx]
      rcases List.mem_cons.mp hmem with rfl | hmem'
      · exact absurd hpe hx
      · exact ih hmem' (fun y hy hpy => huniq y (List.mem_cons_of_mem x hy) hpy)

theorem revFindContaining_some (cache : List KeySubtree) (t : Nat) (i : Nat)
    (st : KeySubtree) (h : revFindContaining cache t = some (i, st)) :
    st ∈ cache ∧ st.contains t = true := by
  have hp := List.find?_some h
  have hmem := List.mem_of_find?_eq_some h
  rw [List.mem_reverse] at hmem
  rw [List.mem_enum_iff_getElem?] at hmem
  exact ⟨List.getElem?_mem hmem, hp⟩

theorem derive_cache_eq_fresh (block : List Nat → List Nat)
    (subscription : SubscriptionEntry) (cache : List KeySubtree) (t : Nat)
    (hcc : CacheConsistent block subscription cache) :
    (derive_decoder_key_for_timestamp block subscription cache t).1 =
      (derive_decoder_key_for_timestamp block subscription [] t).1 := by
  cases cache with
  | nil => rfl
  | cons c0 cs =>
    by_cases h0 : c0.contains t
    · cases hfind : revFindContaining (c0 :: cs) t with
      | none =>
        simp only [derive_decoder_key_for_timestamp, h0, if_true, hfind]
      | some p =>
        obtain ⟨i, st⟩ := p
        obtain ⟨hst_mem, hst_p⟩ := revFindContaining_some _ _ _ _ hfind
        obtain ⟨r, hr, hkey⟩ := hcc st hst_mem t hst_p
        simp only [derive_decoder_key_for_timestamp, h0, if_true, hfind, hr, hkey]
    · simp only [derive_decoder_key_for_timestamp, h0, if_false, Bool.false_eq_true]

theorem derive_preserves_consistent (block : List Nat → List Nat)
    (subscription : SubscriptionEntry) (cache : List KeySubtree) (t : Nat)
    (hwf : subscription.uniqueCover)
    (hcc : CacheConsistent block subscription cache) :
    CacheConsistent block subscription
      (derive_decoder_key_for_timestamp block subscription cache t).2 := by
  have fresh_case : ∀ r0, subscription.active_subtrees.find?
        (fun tree => tree.contains t) = some r0 →
      ∀ e ∈ (walkLoop block r0 t).2, ∀ t', e.contains t' = true →
        ∃ r, subscription.active_subtrees.find? (fun tree => tree.contains t') = some r ∧
          (walkLoop block e t').1.key = (walkLoop block r t').1.key := by
    intro r0 hfind0 e he t' het'
    obtain ⟨⟨hlo, hhi⟩, heq⟩ := walkLoop_pushed block r0 t e he
    have hr0mem : r0 ∈ subscription.active_subtrees := List.mem_of_find?_eq_some hfind0
    have hr0t' : r0.contains t' = true := by
      simp only [KeySubtree.contains, Bool.and_eq_true, decide_eq_true_eq] at het' ⊢
      omega
    refine ⟨r0, ?_, congrArg KeySubtree.key (heq t' het')⟩
    exact find?_eq_some_of_unique hr0mem hr0t'
      (fun x hx hpx => hwf t' x r0 hx hr0mem hpx hr0t')
  cases cache with
  | nil =>
    cases hfind : subscription.active_subtrees.find? (fun tree => tree.contains t) with
    | none =>
      simp only [derive_decoder_key_for_timestamp, hfind]
      intro e he; cases he
    | some r0 =>
      simp only [derive_decoder_key_for_timestamp, hfind]
      intro e he
      exact fresh_case r0 hfind e he
  | cons c0 cs =>
    by_cases h0 : c0.contains t
    · cases hfind : revFindContaining (c0 :: cs) t with
      | none =>
        simp only [derive_decoder_key_for_timestamp, h0, if_true, hfind]
        cases hfind2 : subscription.active_subtrees.find? (fun tree => tree.contains t) with
        | none => intro e he; cases he
        | some r0 => intro e he; exact fresh_case r0 hfind2 e he
      | some p =>
        obtain ⟨i, st⟩ := p
        obtain ⟨hst_mem, hst_p⟩ := revFindContaining_some _ _ _ _ hfind
        simp only [derive_decoder_key_for_timestamp, h0, if_true, hfind]
        intro e he
        rcases List.mem_append.mp he with hkept | hpushed
        · exact hcc e (List.take_subset _ _ hkept)
        · obtain ⟨⟨hlo, hhi⟩, heq⟩ := walkLoop_pushed block st t e hpushed
          intro t' het'
          have hstt' : st.contains t' = true := by
            simp only [KeySubtree.contains, Bool.and_eq_true, decide_eq_true_eq] at het' ⊢
            omega
          obtain ⟨r, hr, hkey⟩ := hcc st hst_mem t' hstt'
          exact ⟨r, hr, (congrArg KeySubtree.key (heq t' het')).trans hkey⟩
    · cases hfind : subscription.active_subtrees.find? (fun tree => tree.contains t) with
      | none =>
        simp only [derive_decoder_key_for_timestamp, h0, if_false, Bool.false_eq_true, hfind]
        intro e he; cases he
      | some r0 =>
        simp only [derive_decoder_key_for_timestamp, h0, if_false, Bool.false_eq_true, hfind]
        intro e he
        exact fresh_case r0 hfind e he

theorem deriveSeq_eq_fresh (block : List Nat → List Nat)
    (subscription : SubscriptionEntry) (hwf : subscription.uniqueCover) :
    ∀ (ts : List Nat) (cache : List KeySubtree),
      CacheConsistent block subscription cache →
      deriveSeq block subscription cache ts =
        ts.map (fun t => (derive_decoder_key_for_timestamp block subscription [] t).1) := by
  intro ts
  induction ts with
  | nil => intro cache _; rfl
  | cons t ts ih =>
    intro cache hcc
    simp only [deriveSeq, List.map_cons]
    refine congrArg₂ _ (derive_cache_eq_fresh block subscription cache t hcc) ?_
    exact ih _ (derive_preserves_consistent block subscription cache t hwf hcc)

/-- C7: for every subscription (with the unique-cover property that
`read_subscription` establishes) and every sequence of timestamps, the
sequence of results returned by successive
`derive_decoder_key_for_timestamp` calls sharing one `ChannelCache` equals
the sequence returned when each call is made with a freshly cleared cache:
the cache is observationally a no-op. -/
theorem cache_transparent (block : List Nat → List Nat)
    (subscription : SubscriptionEntry) (hwf : subscription.uniqueCover)
    (ts : List Nat) :
    deriveSeq block subscription [] ts =
      ts.map (fun t => (derive_decoder_key_for_timestamp block subscription [] t).1) :=
  deriveSeq_eq_fresh block subscription hwf ts []
    (fun e he => absurd he (List.not_mem_nil e))

/-- Witness for `cache_transparent`: a subscription with two adjacent
subtrees, queried at a sequence that exercises cache hits, truncation and
misses. -/
theorem cache_transparent_witness :
    deriveSeq (fun _ => List.range 64) ⟨[], 0, 7, 7, [⟨0, 3, [1]⟩, ⟨4, 7, [2]⟩], 2⟩
        [] [2, 3, 6] =
      [2, 3, 6].map (fun t => (derive_decoder_key_for_timestamp (fun _ => List.range 64)
        ⟨[], 0, 7, 7, [⟨0, 3, [1]⟩, ⟨4, 7, [2]⟩], 2⟩ [] t).1) :=
  cache_transparent (fun _ => List.range 64) ⟨[], 0, 7, 7, [⟨0, 3, [1]⟩, ⟨4, 7, [2]⟩], 2⟩
    (by
      intro t r r' hr hr' hc hc'
      simp only [SubscriptionEntry.active_subtrees, List.take, List.mem_cons,
        List.not_mem_nil, or_false] at hr hr'
      rcases hr with rfl | rfl <;> rcases hr' with rfl | rfl <;>
        simp only [KeySubtree.contains, Bool.and_eq_true, decide_eq_true_eq] at hc hc' <;>
        first | rfl | omega)
    [2, 3, 6]

/-- C4: `decrypt_decoder_payload` fails with `InvalidEncoderPayload` exactly
when the payload is shorter than the 104-byte header plus the
associated-data length, or signature verification fails, or AEAD
verification fails, and succeeds otherwise; and the verified message is
exactly `payload[64..]`, which decomposes as
`aead_nonce ++ aead_tag ++ ciphertext ++ associated_data`. -/
theorem decrypt_decoder_payload_spec (verify : List Nat → List Nat → List Nat → Bool)
    (aead : List Nat → List Nat → List Nat → List Nat → List Nat → Option (List Nat))
    (payload : List Nat) (associated_data_size : Nat)
    (symmetric_key public_key : List Nat) :
    (∀ plaintext,
      decrypt_decoder_payload verify aead payload associated_data_size
          symmetric_key public_key = .ok plaintext ↔
        (HEADER_SIZE + associated_data_size ≤ payload.length ∧
          verify public_key (payload.drop 64) (payload.take 64) = true ∧
          aead symmetric_key ((payload.drop 64).take 24)
            ((payload.drop 104).drop ((payload.drop 104).length - associated_data_size))
            ((payload.drop 104).take ((payload.drop 104).length - associated_data_size))
            ((payload.drop 88).take 16) = some plaintext))
    ∧ (∀ e, decrypt_decoder_payload verify aead payload associated_data_size
          symmetric_key public_key = .error e → e = .invalidEncoderPayload)
    ∧ (HEADER_SIZE + associated_data_size ≤ payload.length →
        payload.drop 64 =
          (payload.drop 64).take 24 ++ (payload.drop 88).take 16 ++
            ((payload.drop 104).take ((payload.drop 104).length - associated_data_size) ++
              (payload.drop 104).drop ((payload.drop 104).length - associated_data_size))) := by
  refine ⟨?_, ?_, ?_⟩
  · intro plaintext
    unfold decrypt_decoder_payload
    by_cases hlen : payload.length < HEADER_SIZE + associated_data_size
    · simp only [if_pos hlen]
      constructor
      · intro h; cases h
      · intro ⟨h1, _⟩; omega
    · simp only [if_neg hlen]
      by_cases hv : verify public_key (payload.drop SIGNATURE_LENGTH)
          (payload.take SIGNATURE_LENGTH) = true
      · rw [if_pos hv]
        cases haead : aead symmetric_key ((payload.drop 64).take 24)
            ((payload.drop HEADER_SIZE).drop
              ((payload.drop HEADER_SIZE).length - associated_data_size))
            ((payload.drop HEADER_SIZE).take
              ((payload.drop HEADER_SIZE).length - associated_data_size))
            ((payload.drop 88).take 16) with
        | none =>
          simp only [haead]
          constructor
          · intro h; cases h
          · intro ⟨_, _, h3⟩
            rw [show HEADER_SIZE = 104 from rfl] at haead
            rw [haead] at h3; cases h3
        | some pt =>
          simp only [haead]
          constructor
          · intro h
            cases h
            refine ⟨by omega, hv, ?_⟩
            rw [show HEADER_SIZE = 104 from rfl] at haead
            exact haead
          · intro ⟨_, _, h3⟩
            rw [show HEADER_SIZE = 104 from rfl] at haead
            rw [haead] at h3
            cases h3
            rfl
      · rw [if_neg hv]
        constructor
        · intro h; cases h
        · intro ⟨_, h2, _⟩
          exact absurd h2 hv
  · intro e
    unfold decrypt_decoder_payload
    by_cases hlen : payload.length < HEADER_SIZE + associated_data_size
    · simp only [if_pos hlen]
      intro h; cases h; rfl
    · simp only [if_neg hlen]
      by_cases hv : verify public_key (payload.drop SIGNATURE_LENGTH)
          (payload.take SIGNATURE_LENGTH) = true
      · rw [if_pos hv]
        cases haead : aead symmetric_key ((payload.drop 64).take 24)
            ((payload.drop HEADER_SIZE).drop
              ((payload.drop HEADER_SIZE).length - associated_data_size))
            ((payload.drop HEADER_SIZE).take
              ((payload.drop HEADER_SIZE).length - associated_data_size))
            ((payload.drop 88).take 16) with
        | none => simp only [haead]; intro h; cases h; rfl
        | some pt => simp only [haead]; intro h; cases h
      · rw [if_neg hv]
        intro h; cases h; rfl
  · intro hlen
    rw [List.take_append_drop
      ((payload.drop 104).length - associated_data_size) (payload.drop 104)]
    have h88 : payload.drop 88 = (payload.drop 64).drop 24 := by
      rw [List.drop_drop]
    have h104 : payload.drop 104 = ((payload.drop 64).drop 24).drop 16 := by
      rw [List.drop_drop, List.drop_drop]
    rw [h88, h104, List.append_assoc]
    rw [List.take_append_drop 16 ((payload.drop 64).drop 24),
      List.take_append_drop 24 (payload.drop 64)]

/-- Witness for `decrypt_decoder_payload_spec` at concrete oracles and a
118-byte payload with 5-byte associated data. -/
theorem decrypt_decoder_payload_spec_witness :
    (∀ plaintext,
      decrypt_decoder_payload (fun _ _ _ => true) (fun _ _ _ _ _ => some [7])
          (List.replicate 118 3) 5 (List.replicate 32 0) (List.replicate 32 1) =
            .ok plaintext ↔
        (HEADER_SIZE + 5 ≤ (List.replicate 118 3).length ∧
          (fun (_ _ _ : List Nat) => true) (List.replicate 32 1)
            ((List.replicate 118 3).drop 64) ((List.replicate 118 3).take 64) = true ∧
          (fun (_ _ _ _ _ : List Nat) => some [7]) (List.replicate 32 0)
            (((List.replicate 118 3).drop 64).take 24)
            (((List.replicate 118 3).drop 104).drop
              (((List.replicate 118 3).drop 104).length - 5))
            (((List.replicate 118 3).drop 104).take
              (((List.replicate 118 3).drop 104).length - 5))
            (((List.replicate 118 3).drop 88).take 16) = some plaintext))
    ∧ (∀ e, decrypt_decoder_payload (fun _ _ _ => true) (fun _ _ _ _ _ => some [7])
          (List.replicate 118 3) 5 (List.replicate 32 0) (List.replicate 32 1) =
            .error e → e = .invalidEncoderPayload)
    ∧ (HEADER_SIZE + 5 ≤ (List.replicate 118 3).length →
        (List.replicate 118 3).drop 64 =
          ((List.replicate 118 3).drop 64).take 24 ++
            ((List.replicate 118 3).drop 88).take 16 ++
            (((List.replicate 118 3).drop 104).take
              (((List.replicate 118 3).drop 104).length - 5) ++
              ((List.replicate 118 3).drop 104).drop
                (((List.replicate 118 3).drop 104).length - 5))) :=
  decrypt_decoder_payload_spec (fun _ _ _ => true) (fun _ _ _ _ _ => some [7])
    (List.replicate 118 3) 5 (List.replicate 32 0) (List.replicate 32 1)

/-- C10: for every authenticated 65-byte plaintext, the emitted response body
is `frame_data[0..frame_len]` and the out-of-bounds branch is unreachable
exactly when `frame_len ≤ 64`; `frame_len > 64` panics (is not a typed
error). -/
theorem frame_response_bounds (plaintext : List Nat) (hlen : plaintext.length = 65) :
    (plaintext.headD 0 ≤ 64 →
      frameResponse plaintext = .body (plaintext.tail.take (plaintext.headD 0)))
    ∧ (frameResponse plaintext = .panicked ↔ 64 < plaintext.headD 0)
    ∧ ∀ e, frameResponse plaintext ≠ .typedError e := by
  unfold frameResponse frameDataFromBytes
  rw [if_pos hlen]
  by_cases h : plaintext.headD 0 ≤ 64
  · simp only [h, if_pos h]
    refine ⟨fun _ => rfl, ?_, ?_⟩
    · constructor
      · intro hcontra; cases hcontra
      · omega
    · intro e hcontra; cases hcontra
  · simp only [if_neg h]
    refine ⟨fun hc => absurd hc h, ?_, ?_⟩
    · constructor
      · intro _; omega
      · intro _; trivial
    · intro e hcontra; cases hcontra

/-- Witness for `frame_response_bounds`: the 65-byte plaintext
`70 :: List.replicate 64 9` (`frame_len = 70 > 64` panics). -/
theorem frame_response_bounds_witness :
    ((70 :: List.replicate 64 9).headD 0 ≤ 64 →
      frameResponse (70 :: List.replicate 64 9) =
        .body ((70 :: List.replicate 64 9).tail.take ((70 :: List.replicate 64 9).headD 0)))
    ∧ (frameResponse (70 :: List.replicate 64 9) = .panicked ↔
        64 < (70 :: List.replicate 64 9).headD 0)
    ∧ ∀ e, frameResponse (70 :: List.replicate 64 9) ≠ .typedError e :=
  frame_response_bounds (70 :: List.replicate 64 9) (by simp)

theorem leNat_take_one (l : List Nat) : leNat (l.take 1) = l.headD 0 := by
  cases l <;> simp [leNat]

theorem headD_drop (data : List Nat) (off : Nat) :
    (data.drop off).headD 0 = data.getD off 0 := by
  rw [List.headD_eq_head?_getD, List.head?_drop, List.getD_eq_getElem?_getD]

theorem readSubtreesLoop_eq_layout (data : List Nat) :
    ∀ n off current,
      readSubtreesLoop ⟨data, off⟩ current n =
        (layoutSubtrees data off current n).map (fun l => (l, ⟨data, off + 33 * n⟩)) := by
  intro n
  induction n with
  | zero =>
    intro off current
    simp [readSubtreesLoop, layoutSubtrees, Except.map]
  | succ n ih =>
    intro off current
    simp only [readSubtreesLoop, layoutSubtrees, Cursor.read_bytes, List.length_drop]
    by_cases h1 : data.length - off < 1
    · simp only [if_pos h1, Except.map]
    · simp only [if_neg h1]
      have hd : ((data.drop off).take 1).headD 0 = data.getD off 0 := by
        rw [← headD_drop data off]
        cases data.drop off <;> simp
      rw [hd]
      by_cases h2 : current ≤
          (current + 2 ^ (((64 + 256 - data.getD off 0 % 256) % 256) % 64) +
            (U64_MOD - 1)) % U64_MOD
      · simp only [if_pos h2]
        by_cases h3 : data.length - (off + 1) < 32
        · simp only [if_pos h3, Except.map]
        · simp only [if_neg h3, ih]
          have harith : off + 1 + 32 = off + 33 := by omega
          rw [harith]
          cases hres : layoutSubtrees data (off + 33)
              (((current + 2 ^ (((64 + 256 - data.getD off 0 % 256) % 256) % 64) +
                (U64_MOD - 1)) % U64_MOD + 1) % U64_MOD) n with
          | error e => simp only [Except.map]
          | ok rest =>
            simp only [Except.map]
            have harith2 : off + 33 + 33 * n = off + 33 * (n + 1) := by ring
            rw [harith2]
      · simp only [if_neg h2, Except.map]

/-- C5 (amended): `read_subscription` parses exactly the direct offset-based
layout `public_key[32] ‖ start_time:u64 ‖ end_time:u64 ‖ channel_id:u32 ‖
subtree_count:u8 ‖ (depth:u8 ‖ node_key[32]) *`, interleaved per subtree,
with acceptance exactly under `layoutParse`'s conditions. -/
theorem read_subscription_eq_layoutParse (data : List Nat) :
    read_subscription data = layoutParse data := by
  have e40 : (32 + 8 : Nat) = 40 := rfl
  have e48 : (40 + 8 : Nat) = 48 := rfl
  have e52 : (48 + 4 : Nat) = 52 := rfl
  have e53 : (52 + 1 : Nat) = 53 := rfl
  have hcount : leNat ((data.drop 52).take 1) = data.getD 52 0 := by
    rw [leNat_take_one, headD_drop]
  unfold read_subscription layoutParse
  by_cases h1 : data.length < 32
  · simp [Cursor.read_bytes, h1]
  · by_cases h2 : data.length - 32 < 8
    · simp [Cursor.read_bytes, h1, h2]
    · by_cases h3 : data.length - 40 < 8
      · simp [Cursor.read_bytes, h1, h2, h3, e40]
      · by_cases h4 : leNat ((data.drop 32).take 8) ≤ leNat ((data.drop 40).take 8)
        · by_cases h5 : data.length - 48 < 4
          · simp [Cursor.read_bytes, h1, h2, h3, h4, h5, e40, e48]
          · by_cases h6 : leNat ((data.drop 48).take 4) = EMERGENCY_CHANNEL_ID
            · simp [Cursor.read_bytes, h1, h2, h3, h4, h5, h6, e40, e48, e52]
            · by_cases h7 : data.length - 52 < 1
              · simp [Cursor.read_bytes, h1, h2, h3, h4, h5, h6, h7, e40, e48, e52]
              · by_cases h8 : data.getD 52 0 ≤ 128
                · simp only [Cursor.read_bytes, List.length_drop, List.drop_zero,
                    Nat.sub_zero, if_neg h1, if_neg h2, if_neg h3, e40, if_pos h4,
                    if_neg h5, e48, if_neg h6, if_neg h7, e52, hcount, if_pos h8, e53]
                  rw [readSubtreesLoop_eq_layout]
                  cases hres : layoutSubtrees data 53 (leNat ((data.drop 32).take 8))
                      (data.getD 52 0) with
                  | error e => simp only [Except.map]
                  | ok subtrees => simp only [Except.map]
                · simp only [Cursor.read_bytes, List.length_drop, List.drop_zero,
                    Nat.sub_zero, if_neg h1, if_neg h2, if_neg h3, e40, if_pos h4,
                    if_neg h5, e48, if_neg h6, if_neg h7, e52, hcount, if_neg h8]
        · simp [Cursor.read_bytes, h1, h2, h3, h4, e40]

/-- C5 counterexample input: a 78-byte plaintext laid out exactly as the
claim states (`public_key[32] ‖ start_time:u64 ‖ channel_id:u32 ‖
subtree_count:u8 ‖ depths[1] ‖ node_keys[1][32]`): channel 1 at bytes
40..44, one subtree of depth 63 whose implied interval `[0, 1]`
contiguously partitions `[start, start + 1]`.  The decoder rejects it: it
reads bytes 40..48 as `end_time` and bytes 48..52 (key material here) as
the channel id, then runs out of bytes reading the first node key. -/
theorem read_subscription_claim_layout_counterexample :
    (List.replicate 32 0 ++ List.replicate 8 0 ++ [1, 0, 0, 0] ++ [1] ++ [63] ++
        List.replicate 32 5).length = 45 + 33 * 1
    ∧ leNat (((List.replicate 32 0 ++ List.replicate 8 0 ++ [1, 0, 0, 0] ++ [1] ++ [63] ++
        List.replicate 32 5).drop 40).take 4) = 1
    ∧ (List.replicate 32 0 ++ List.replicate 8 0 ++ [1, 0, 0, 0] ++ [1] ++ [63] ++
        List.replicate 32 5).getD 44 0 = 1
    ∧ (List.replicate 32 0 ++ List.replicate 8 0 ++ [1, 0, 0, 0] ++ [1] ++ [63] ++
        List.replicate 32 5).getD 45 0 = 63
    ∧ read_subscription (List.replicate 32 0 ++ List.replicate 8 0 ++ [1, 0, 0, 0] ++
        [1] ++ [63] ++ List.replicate 32 5) =
      .error (.err (.cursorOversize 24)) :=
  ⟨rfl, rfl, rfl, rfl, rfl⟩

/-- C9 (amended): when the decrypted subscription plaintext parses far
enough (at least 53 bytes, `start_time ≤ end_time`) and carries the
emergency channel id — or a `subtree_count` greater than 128 — the
subscribe handler does not return an error value: `read_subscription`
fails a Rust `assert!` and the device panics (no `Error` wire packet, the
main loop does not continue), and no subscription slot is modified. -/
theorem subscribe_rejects_by_panic (data : List Nat)
    (slots : List (Option SubscriptionEntry))
    (hlen : 53 ≤ data.length)
    (hse : leNat ((data.drop 32).take 8) ≤ leNat ((data.drop 40).take 8))
    (hcond : leNat ((data.drop 48).take 4) = EMERGENCY_CHANNEL_ID ∨
      128 < data.getD 52 0) :
    subscribe_after_decrypt slots data = (slots, .error .panic) := by
  have e40 : (32 + 8 : Nat) = 40 := rfl
  have e48 : (40 + 8 : Nat) = 48 := rfl
  have e52 : (48 + 4 : Nat) = 52 := rfl
  have hcount : leNat ((data.drop 52).take 1) = data.getD 52 0 := by
    rw [leNat_take_one, headD_drop]
  have hA : ¬ data.length < 32 := by omega
  have hB : ¬ data.length - 32 < 8 := by omega
  have hC : ¬ data.length - 40 < 8 := by omega
  have hD : ¬ data.length - 48 < 4 := by omega
  have hE : ¬ data.length - 52 < 1 := by omega
  have hsub : read_subscription data = .error .panic := by
    unfold read_subscription
    by_cases h6 : leNat ((data.drop 48).take 4) = EMERGENCY_CHANNEL_ID
    · simp only [Cursor.read_bytes, List.length_drop, List.drop_zero, Nat.sub_zero,
        if_neg hA, if_neg hB, e40, if_neg hC, if_pos hse, e48, if_neg hD, if_pos h6]
    · have hbig : 128 < data.getD 52 0 := hcond.resolve_left h6
      have hF : ¬ data.getD 52 0 ≤ 128 := by omega
      simp only [Cursor.read_bytes, List.length_drop, List.drop_zero, Nat.sub_zero,
        if_neg hA, if_neg hB, e40, if_neg hC, if_pos hse, e48, if_neg hD, if_neg h6,
        e52, if_neg hE, hcount, if_neg hF]
  unfold subscribe_after_decrypt
  rw [hsub]

/-- Witness for `subscribe_rejects_by_panic`: a 53-byte plaintext whose
channel-id field (bytes 48..52) is the emergency channel. -/
theorem subscribe_rejects_by_panic_witness :
    subscribe_after_decrypt [none]
        (List.replicate 48 0 ++ [0, 0, 0, 0] ++ [0]) =
      ([none], .error .panic) :=
  subscribe_rejects_by_panic (List.replicate 48 0 ++ [0, 0, 0, 0] ++ [0]) [none]
    (by decide) (by decide) (Or.inl (by decide))

/-- C9 counterexample: a concrete decrypted plaintext with the emergency
channel id in its channel field is rejected by a panic
(`SubscribeFailure.panic`), not by a returned error value, with no slot
modified — not by an error packet with the loop continuing. -/
theorem subscribe_emergency_panic_counterexample :
    subscribe_after_decrypt [none, none]
        (List.replicate 48 7 ++ [0, 0, 0, 0] ++ [2]) =
      ([none, none], .error .panic) :=
  rfl

theorem end_time_loop_spec :
    ∀ (ds : List Nat) (current : Nat), current < U64_MOD →
      (∀ d ∈ ds, d ≤ 64) →
      end_time_loop current ds = (current + (ds.map specDepthSize).sum) % U64_MOD := by
  intro ds
  induction ds with
  | nil =>
    intro current hc _
    simp [end_time_loop, Nat.mod_eq_of_lt hc]
  | cons d rest ih =>
    intro current hc hd
    have hsize : nodeOffset d + 1 = specDepthSize d := by
      by_cases h0 : d = 0
      · simp [nodeOffset, specDepthSize, h0, U64_MOD]
      · have hd64 : d ≤ 64 := hd d (List.mem_cons_self d rest)
        have h1 : d % 256 = d := Nat.mod_eq_of_lt (by omega)
        have h2 : (64 + 256 - d % 256) % 256 = 64 - d := by rw [h1]; omega
        have h3 : (64 - d) % 64 = 64 - d := Nat.mod_eq_of_lt (by omega)
        simp only [nodeOffset, specDepthSize, if_neg h0, h2, h3]
        have : 0 < 2 ^ (64 - d) := Nat.pos_pow_of_pos _ (by omega)
        omega
    simp only [end_time_loop, List.map_cons, List.sum_cons]
    rw [ih _ (Nat.mod_lt _ (by simp [U64_MOD])) (fun x hx => hd x (List.mem_cons_of_mem d hx))]
    rw [Nat.mod_add_mod, Nat.add_assoc, Nat.mod_add_mod]
    rw [← hsize]
    ring_nf

theorem filterMap_option_map {α β : Type} (f : α → β) (l : List (Option α)) :
    l.filterMap (fun s => s.map f) = (l.filterMap id).map f := by
  induction l with
  | nil => rfl
  | cons s rest ih => cases s <;> simp [List.filterMap_cons, ih]

theorem list_channels_eq_map (slots : List (Option CompressedSubscriptionEntry)) :
    list_channels slots = (slots.filterMap id).map
      (fun sub => ⟨sub.channel_id, sub.start_time, sub.end_time⟩) := by
  unfold list_channels
  exact filterMap_option_map _ slots

/-- C8: `list_channels` returns exactly one entry per occupied slot (the
listed channel ids are exactly the occupied slots' channel ids, in slot
order), and each entry's `end_time` is recomputed from `start_time` and
the stored depths as the inclusive upper bound of the last implied
interval, a depth `d` contributing `2^(64-d)` timestamps (depth 0 the full
`2^64` range), with wrapping arithmetic. -/
theorem list_channels_complete (slots : List (Option CompressedSubscriptionEntry))
    (hwf : ∀ sub ∈ slots.filterMap id, sub.start_time < U64_MOD ∧
      ∀ d ∈ sub.depths.take sub.subtree_count, d ≤ 64) :
    (list_channels slots).map DecoderChannelInfoResult.channel_id = occupiedIds slots
    ∧ list_channels slots = (slots.filterMap id).map
        (fun sub => ⟨sub.channel_id, sub.start_time, specEndTime sub⟩) := by
  have hend : ∀ sub ∈ slots.filterMap id, sub.end_time = specEndTime sub := by
    intro sub hsub
    obtain ⟨hstart, hdep⟩ := hwf sub hsub
    unfold CompressedSubscriptionEntry.end_time specEndTime
    rw [end_time_loop_spec _ _ hstart hdep]
    rw [Nat.mod_add_mod]
  constructor
  · rw [list_channels_eq_map, occupiedIds, List.map_map]
    rfl
  · rw [list_channels_eq_map]
    apply List.map_congr_left
    intro sub hsub
    rw [hend sub hsub]

/-- Witness for `list_channels_complete`: one occupied slot (depth-64
subtree at start 5) and one empty slot. -/
theorem list_channels_complete_witness :
    (list_channels [some ⟨[], 5, 3, 1, [64], [[1]]⟩, none]).map
        DecoderChannelInfoResult.channel_id =
      occupiedIds [some ⟨[], 5, 3, 1, [64], [[1]]⟩, none]
    ∧ list_channels [some ⟨[], 5, 3, 1, [64], [[1]]⟩, none] =
        ([some ⟨[], 5, 3, 1, [64], [[1]]⟩, none].filterMap id).map
          (fun sub => ⟨sub.channel_id, sub.start_time, specEndTime sub⟩) :=
  list_channels_complete [some ⟨[], 5, 3, 1, [64], [[1]]⟩, none]
    (by
      intro sub hsub
      have hs : sub = ⟨[], 5, 3, 1, [64], [[1]]⟩ := by simpa using hsub
      subst hs
      refine ⟨by norm_num [U64_MOD], ?_⟩
      intro d hd
      simp at hd
      omega)

theorem occupiedIds_set_same_id (sub : CompressedSubscriptionEntry) :
    ∀ (slots : List (Option CompressedSubscriptionEntry)) (i : Nat),
      get_channel_info_index slots sub.channel_id = some i →
      occupiedIds (slots.set i (some sub)) = occupiedIds slots := by
  intro slots
  induction slots with
  | nil => intro i h; cases h
  | cons s rest ih =>
    intro i h
    rw [get_channel_info_index, List.findIdx?_cons, List.findIdx?_succ] at h
    split at h
    · cases h
      rename_i hp
      cases s with
      | none => simp at hp
      | some e =>
        simp only [beq_iff_eq] at hp
        rw [List.set_cons_zero]
        simp [occupiedIds, List.filterMap_cons, hp]
    · cases hr : rest.findIdx? (fun s =>
          match s with
          | some e => e.channel_id == sub.channel_id
          | none => false) with
      | none => rw [hr] at h; cases h
      | some j =>
        rw [hr] at h
        simp only [Option.map_some'] at h
        cases h
        have htail := ih j (by rw [get_channel_info_index, hr])
        cases s <;>
          simp only [List.set_cons_succ, occupiedIds, List.filterMap_cons, id,
            List.map_cons] <;>
          simp only [occupiedIds] at htail <;>
          simp [htail]

theorem not_mem_occupied_of_find_none (cid : Nat)
    (slots : List (Option CompressedSubscriptionEntry))
    (h : get_channel_info_index slots cid = none) : cid ∉ occupiedIds slots := by
  intro hmem
  rw [get_channel_info_index, List.findIdx?_eq_none_iff] at h
  rw [occupiedIds, List.mem_map] at hmem
  obtain ⟨e, he, hcid⟩ := hmem
  rw [List.mem_filterMap] at he
  obtain ⟨s, hs, hse⟩ := he
  have hps := h s hs
  cases s with
  | none => cases hse
  | some e' =>
    cases hse
    simp only [beq_eq_false_iff_ne, ne_eq] at hps
    exact hps hcid

theorem mem_occupied_set_some (sub : CompressedSubscriptionEntry) (x : Nat) :
    ∀ (slots : List (Option CompressedSubscriptionEntry)) (j : Nat),
      x ∈ occupiedIds (slots.set j (some sub)) →
      x = sub.channel_id ∨ x ∈ occupiedIds slots := by
  intro slots
  induction slots with
  | nil => intro j h; simp [occupiedIds] at h
  | cons s rest ih =>
    intro j h
    cases j with
    | zero =>
      rw [List.set_cons_zero] at h
      simp only [occupiedIds, List.filterMap_cons, id, List.map_cons, List.mem_cons] at h
      rcases h with h | h
      · exact Or.inl h
      · right
        cases s with
        | none => simpa [occupiedIds, List.filterMap_cons] using h
        | some e =>
          simp only [occupiedIds, List.filterMap_cons, id, List.map_cons, List.mem_cons]
          exact Or.inr (by simpa [occupiedIds] using h)
    | succ j' =>
      rw [List.set_cons_succ] at h
      cases s with
      | none =>
        simp only [occupiedIds, List.filterMap_cons, id] at h ⊢
        exact ih j' h
      | some e =>
        simp only [occupiedIds, List.filterMap_cons, id, List.map_cons,
          List.mem_cons] at h ⊢
        rcases h with h | h
        · exact Or.inr (Or.inl h)
        · rcases ih j' h with h' | h'
          · exact Or.inl h'
          · exact Or.inr (Or.inr h')

theorem nodup_occupied_set_empty (sub : CompressedSubscriptionEntry) :
    ∀ (slots : List (Option CompressedSubscriptionEntry)) (j : Nat),
      get_channel_info_index slots sub.channel_id = none →
      find_empty_index slots = some j →
      (occupiedIds slots).Nodup →
      (occupiedIds (slots.set j (some sub))).Nodup := by
  intro slots
  induction slots with
  | nil => intro j _ hj _; cases hj
  | cons s rest ih =>
    intro j hget hj hnodup
    rw [get_channel_info_index, List.findIdx?_cons, List.findIdx?_succ] at hget
    rw [find_empty_index, List.findIdx?_cons, List.findIdx?_succ] at hj
    cases s with
    | none =>
      split at hj
      case isFalse hfalse => exact absurd rfl hfalse
      cases hj
      rw [List.set_cons_zero]
      simp only [occupiedIds, List.filterMap_cons, id, List.map_cons] at hnodup ⊢
      rw [List.nodup_cons]
      refine ⟨?_, hnodup⟩
      have hrest : get_channel_info_index rest sub.channel_id = none := by
        split at hget
        case isTrue htrue => simp at htrue
        rw [get_channel_info_index]
        cases hr : rest.findIdx? (fun s =>
            match s with
            | some e => e.channel_id == sub.channel_id
            | none => false) with
        | none => rfl
        | some k => rw [hr] at hget; cases hget
      exact not_mem_occupied_of_find_none sub.channel_id rest hrest
    | some e =>
      split at hj
      case isTrue htrue => simp at htrue
      split at hget
      · cases hget
      · rename_i hp
        cases hr : rest.findIdx? (fun s =>
            match s with
            | some e => e.channel_id == sub.channel_id
            | none => false) with
        | some k => rw [hr] at hget; simp at hget
        | none =>
          cases hj' : rest.findIdx? (fun s => s.isNone) with
          | none => rw [hj'] at hj; cases hj
          | some j' =>
            rw [hj'] at hj
            simp only [Option.map_some'] at hj
            cases hj
            rw [List.set_cons_succ]
            simp only [occupiedIds, List.filterMap_cons, id, List.map_cons] at hnodup ⊢
            rw [List.nodup_cons] at hnodup ⊢
            obtain ⟨hne, hnd⟩ := hnodup
            refine ⟨?_, ih j' (by rw [get_channel_info_index, hr])
              (by rw [find_empty_index, hj']) hnd⟩
            intro hmem
            rcases mem_occupied_set_some sub e.channel_id rest j' hmem with h' | h'
            · simp only [Bool.not_eq_true] at hp
              simp only [beq_eq_false_iff_ne, ne_eq] at hp
              exact hp h'
            · exact hne h'

/-- C6: `update_subscription` writes the new subscription to the slot that
already stores the same channel id if one exists; otherwise to the first
slot holding no object; otherwise it modifies no slot and fails with
`TooManySubscriptions`; and (the invariant this policy maintains) if no
two occupied slots share a channel id before the update, none do after. -/
theorem update_subscription_slot_policy
    (slots : List (Option CompressedSubscriptionEntry))
    (subscription : CompressedSubscriptionEntry)
    (hnodup : (occupiedIds slots).Nodup) :
    (∀ i, get_channel_info_index slots subscription.channel_id = some i →
      update_subscription slots subscription = .ok (slots.set i (some subscription)))
    ∧ (get_channel_info_index slots subscription.channel_id = none →
        ∀ j, find_empty_index slots = some j →
          update_subscription slots subscription = .ok (slots.set j (some subscription)))
    ∧ (get_channel_info_index slots subscription.channel_id = none →
        find_empty_index slots = none →
        update_subscription slots subscription = .error .tooManySubscriptions)
    ∧ (∀ slots', update_subscription slots subscription = .ok slots' →
        (occupiedIds slots').Nodup) := by
  refine ⟨?_, ?_, ?_, ?_⟩
  · intro i hi
    rw [update_subscription, hi]
  · intro hnone j hj
    rw [update_subscription, hnone, hj]
  · intro hnone hempty
    rw [update_subscription, hnone, hempty]
  · intro slots' hok
    rw [update_subscription] at hok
    cases hi : get_channel_info_index slots subscription.channel_id with
    | some i =>
      rw [hi] at hok
      cases hok
      rw [occupiedIds_set_same_id subscription slots i hi]
      exact hnodup
    | none =>
      rw [hi] at hok
      cases hj : find_empty_index slots with
      | none => rw [hj] at hok; cases hok
      | some j =>
        rw [hj] at hok
        cases hok
        exact nodup_occupied_set_empty subscription slots j hi hj hnodup

/-- Witness for `update_subscription_slot_policy`: a two-slot store holding
channel 1, updated with a channel-2 subscription (placed in the empty
slot, ids stay distinct). -/
theorem update_subscription_slot_policy_witness :
    ((∀ i, get_channel_info_index [some ⟨[], 0, 1, 0, [], []⟩, none] 2 = some i →
      update_subscription [some ⟨[], 0, 1, 0, [], []⟩, none] ⟨[], 9, 2, 0, [], []⟩ =
        .ok ([some ⟨[], 0, 1, 0, [], []⟩, none].set i (some ⟨[], 9, 2, 0, [], []⟩)))
    ∧ (get_channel_info_index [some ⟨[], 0, 1, 0, [], []⟩, none] 2 = none →
        ∀ j, find_empty_index [some ⟨[], 0, 1, 0, [], []⟩, none] = some j →
          update_subscription [some ⟨[], 0, 1, 0, [], []⟩, none] ⟨[], 9, 2, 0, [], []⟩ =
            .ok ([some ⟨[], 0, 1, 0, [], []⟩, none].set j (some ⟨[], 9, 2, 0, [], []⟩)))
    ∧ (get_channel_info_index [some ⟨[], 0, 1, 0, [], []⟩, none] 2 = none →
        find_empty_index [some ⟨[], 0, 1, 0, [], []⟩, none] = none →
        update_subscription [some ⟨[], 0, 1, 0, [], []⟩, none] ⟨[], 9, 2, 0, [], []⟩ =
          .error .tooManySubscriptions)
    ∧ (∀ slots', update_subscription [some ⟨[], 0, 1, 0, [], []⟩, none]
          ⟨[], 9, 2, 0, [], []⟩ = .ok slots' → (occupiedIds slots').Nodup)) :=
  update_subscription_slot_policy [some ⟨[], 0, 1, 0, [], []⟩, none]
    ⟨[], 9, 2, 0, [], []⟩ (by decide)

/-- C3 (amended): (a) after any successful decode at timestamp `t`, a decode
request whose associated data carries `t' ≤ t` fails with
`NonMonotonicTimestamp` before any key work, leaving the context
untouched; (b) `last_decoded_timestamp` changes only when signature
verification, decryption and the `FrameData` cast have all succeeded, and
then it becomes the frame's timestamp; (c) every decode failing with any
error other than a response-write failure leaves `last_decoded_timestamp`
unchanged — a decode whose response write fails returns that error with
`last_decoded_timestamp` already updated. -/
theorem decode_monotonic_and_update_discipline
    (verify : List Nat → List Nat → List Nat → Bool)
    (aead : List Nat → List Nat → List Nat → List Nat → List Nat → Option (List Nat))
    (block : List Nat → List Nat) (channel0Key emergencyPubKey : List Nat)
    (writeOk : Bool) (context : DecoderContext) (encoded_frame : List Nat) :
    (∀ frame_info prev, get_frame_associated_data encoded_frame = .ok frame_info →
      context.last_decoded_timestamp = some prev → frame_info.timestamp ≤ prev →
      decode verify aead block channel0Key emergencyPubKey writeOk context
        encoded_frame = (context, .err .nonMonotonicTimestamp))
    ∧ (∀ context' outcome,
        decode verify aead block channel0Key emergencyPubKey writeOk context
          encoded_frame = (context', outcome) →
        context'.last_decoded_timestamp ≠ context.last_decoded_timestamp →
        ∃ frame_info symmetric_key public_key context2 frame_bytes frame_data,
          get_frame_associated_data encoded_frame = .ok frame_info ∧
          get_keys_for_channel block channel0Key emergencyPubKey context
            frame_info.channel_number frame_info.timestamp =
              (.ok (symmetric_key, public_key), context2) ∧
          decrypt_decoder_payload verify aead encoded_frame 9 symmetric_key
            public_key = .ok frame_bytes ∧
          frameDataFromBytes frame_bytes = some frame_data ∧
          context'.last_decoded_timestamp = some frame_info.timestamp)
    ∧ (∀ context' e,
        decode verify aead block channel0Key emergencyPubKey writeOk context
          encoded_frame = (context', .err e) →
        e ≠ .msgError →
        context'.last_decoded_timestamp = context.last_decoded_timestamp) := by
  have hkeys_last : ∀ channel_id timestamp r context2,
      get_keys_for_channel block channel0Key emergencyPubKey context channel_id
        timestamp = (r, context2) →
      context2.last_decoded_timestamp = context.last_decoded_timestamp := by
    intro channel_id timestamp r context2 h
    unfold get_keys_for_channel at h
    split at h
    · cases h; rfl
    · split at h
      · cases h; rfl
      · dsimp only at h
        split at h
        · cases h; rfl
        · split at h <;> (cases h; rfl)
  refine ⟨?_, ?_, ?_⟩
  · intro frame_info prev had hlast hle
    unfold decode
    rw [had, hlast]
    simp only [Option.any_some, decide_eq_true_eq, if_pos hle]
  · intro context' outcome hdec hne
    unfold decode at hdec
    cases had : get_frame_associated_data encoded_frame with
    | error e => rw [had] at hdec; cases hdec; exact absurd rfl hne
    | ok frame_info =>
      rw [had] at hdec
      dsimp only at hdec
      by_cases hmono : context.last_decoded_timestamp.any
          (fun last_decoded => decide (frame_info.timestamp ≤ last_decoded)) = true
      · rw [if_pos hmono] at hdec; cases hdec; exact absurd rfl hne
      · rw [if_neg hmono] at hdec
        cases hkeys : get_keys_for_channel block channel0Key emergencyPubKey context
            frame_info.channel_number frame_info.timestamp with
        | mk kr context2 =>
          rw [hkeys] at hdec
          cases kr with
          | error e =>
            cases hdec
            exact absurd (hkeys_last _ _ _ _ hkeys) hne
          | ok keys =>
            obtain ⟨symmetric_key, public_key⟩ := keys
            dsimp only at hdec
            cases hdecr : decrypt_decoder_payload verify aead encoded_frame 9
                symmetric_key public_key with
            | error e =>
              rw [hdecr] at hdec
              cases hdec
              exact absurd (hkeys_last _ _ _ _ hkeys) hne
            | ok frame_bytes =>
              rw [hdecr] at hdec
              dsimp only at hdec
              cases hcast : frameDataFromBytes frame_bytes with
              | none =>
                rw [hcast] at hdec
                cases hdec
                exact absurd (hkeys_last _ _ _ _ hkeys) hne
              | some frame_data =>
                rw [hcast] at hdec
                dsimp only at hdec
                refine ⟨frame_info, symmetric_key, public_key, context2, frame_bytes,
                  frame_data, rfl, hkeys, hdecr, hcast, ?_⟩
                by_cases hlen : frame_data.frame_len ≤ 64
                · rw [if_pos hlen] at hdec
                  cases writeOk with
                  | true => rw [if_pos rfl] at hdec; cases hdec; rfl
                  | false =>
                    rw [if_neg (by simp)] at hdec; cases hdec; rfl
                · rw [if_neg hlen] at hdec; cases hdec; rfl
  · intro context' e hdec hnotmsg
    unfold decode at hdec
    cases had : get_frame_associated_data encoded_frame with
    | error e0 => rw [had] at hdec; cases hdec; rfl
    | ok frame_info =>
      rw [had] at hdec
      dsimp only at hdec
      by_cases hmono : context.last_decoded_timestamp.any
          (fun last_decoded => decide (frame_info.timestamp ≤ last_decoded)) = true
      · rw [if_pos hmono] at hdec; cases hdec; rfl
      · rw [if_neg hmono] at hdec
        cases hkeys : get_keys_for_channel block channel0Key emergencyPubKey context
            frame_info.channel_number frame_info.timestamp with
        | mk kr context2 =>
          rw [hkeys] at hdec
          cases kr with
          | error e0 =>
            cases hdec
            exact hkeys_last _ _ _ _ hkeys
          | ok keys =>
            obtain ⟨symmetric_key, public_key⟩ := keys
            dsimp only at hdec
            cases hdecr : decrypt_decoder_payload verify aead encoded_frame 9
                symmetric_key public_key with
            | error e0 =>
              rw [hdecr] at hdec
              cases hdec
              exact hkeys_last _ _ _ _ hkeys
            | ok frame_bytes =>
              rw [hdecr] at hdec
              dsimp only at hdec
              cases hcast : frameDataFromBytes frame_bytes with
              | none =>
                rw [hcast] at hdec
                cases hdec
                exact hkeys_last _ _ _ _ hkeys
              | some frame_data =>
                rw [hcast] at hdec
                dsimp only at hdec
                by_cases hlen : frame_data.frame_len ≤ 64
                · rw [if_pos hlen] at hdec
                  cases writeOk with
                  | true => rw [if_pos rfl] at hdec; cases hdec
                  | false =>
                    rw [if_neg (by simp)] at hdec
                    cases hdec
                    exact absurd rfl hnotmsg
                · rw [if_neg hlen] at hdec; cases hdec

/-- Witness for `decode_monotonic_and_update_discipline`: a decode of an
all-zero 113-byte payload (timestamp 0) after a successful decode at
timestamp 5 is rejected as non-monotonic with the context untouched. -/
theorem decode_monotonic_witness :
    decode (fun _ _ _ => true) (fun _ _ _ _ _ => some (0 :: List.replicate 64 0))
        (fun _ => []) (List.replicate 32 0) (List.replicate 32 0) true
        ⟨[], some 5⟩ (List.replicate 113 0) =
      (⟨[], some 5⟩, .err .nonMonotonicTimestamp) :=
  (decode_monotonic_and_update_discipline (fun _ _ _ => true)
    (fun _ _ _ _ _ => some (0 :: List.replicate 64 0)) (fun _ => [])
    (List.replicate 32 0) (List.replicate 32 0) true ⟨[], some 5⟩
    (List.replicate 113 0)).1 ⟨0, 0⟩ 5 rfl rfl (by decide)

/-- C3 counterexample: a decode whose pipeline succeeds but whose response
write fails (bad acknowledgement) returns an error, yet
`last_decoded_timestamp` has been updated from `none` to `some 0`: a
failing decode that does alter `last_decoded_timestamp`. -/
theorem decode_write_failure_counterexample :
    decode (fun _ _ _ => true) (fun _ _ _ _ _ => some (0 :: List.replicate 64 0))
        (fun _ => []) (List.replicate 32 0) (List.replicate 32 0) false
        ⟨[], none⟩ (List.replicate 113 0) =
      (⟨[], some 0⟩, .err .msgError)
    ∧ (some 0 : Option Nat) ≠ none :=
  ⟨rfl, by decide⟩

theorem applyOps_untouched (lo : Nat) :
    ∀ (ops : List (PageBytes → PageBytes)),
      (∀ op ∈ ops, ∀ q i, lo ≤ i → op q i = q i) →
      ∀ q i, lo ≤ i → applyOps ops q i = q i := by
  intro ops
  induction ops with
  | nil => intro _ q i _; rfl
  | cons op rest ih =>
    intro h q i hi
    have hop := h op (List.mem_cons_self op rest)
    have hrest := ih (fun o ho => h o (List.mem_cons_of_mem op ho))
    calc applyOps (op :: rest) q i = applyOps rest (op q) i := rfl
      _ = op q i := hrest (op q) i hi
      _ = q i := hop q i hi

theorem padTo16_length_mod (data : List Nat) : (padTo16 data).length % 16 = 0 := by
  simp only [padTo16, List.length_append, List.length_replicate]
  omega

theorem padTo16_length_le (data : List Nat)
    (hlen : data.length < FLASH_PAGE_SIZE - 16) :
    (padTo16 data).length ≤ STATUS_OFFSET := by
  simp only [padTo16, List.length_append, List.length_replicate, STATUS_OFFSET,
    FLASH_PAGE_SIZE] at *
  omega

theorem writeOps_untouched (data : List Nat)
    (hlen : data.length < FLASH_PAGE_SIZE - 16) :
    ∀ op ∈ writeOps data, ∀ q i, STATUS_OFFSET ≤ i → op q i = q i := by
  intro op hop q i hi
  rw [writeOps] at hop
  obtain ⟨j, hj, rfl⟩ := List.mem_map.mp hop
  rw [List.mem_range] at hj
  have hchunk : (((padTo16 data).drop (16 * j)).take 16).length ≤ 16 := by
    simp
  have hbound : 16 * j + 16 ≤ (padTo16 data).length := by
    have := padTo16_length_mod data
    omega
  have hle := padTo16_length_le data hlen
  rw [writeBytesAt]
  rw [if_neg]
  push_neg
  intro _
  omega

theorem applyOps_range_map (data : List Nat) :
    ∀ (m : Nat), 16 * m ≤ (padTo16 data).length →
      ∀ q i, applyOps ((List.range m).map
          (fun j => writeBytesAt (16 * j) (((padTo16 data).drop (16 * j)).take 16))) q i =
        if i < 16 * m then (padTo16 data).getD i 0 else q i := by
  intro m
  induction m with
  | zero =>
    intro _ q i
    simp [applyOps]
  | succ m ih =>
    intro hm q i
    rw [List.range_succ, List.map_append]
    rw [applyOps, List.foldl_append]
    have hfold : (List.foldl (fun acc op => op acc) q ((List.range m).map
        (fun j => writeBytesAt (16 * j) (((padTo16 data).drop (16 * j)).take 16)))) =
        applyOps ((List.range m).map
          (fun j => writeBytesAt (16 * j) (((padTo16 data).drop (16 * j)).take 16))) q :=
      rfl
    simp only [List.map_cons, List.map_nil, List.foldl_cons, List.foldl_nil]
    rw [hfold]
    have hchunklen : (((padTo16 data).drop (16 * m)).take 16).length = 16 := by
      simp only [List.length_take, List.length_drop]
      omega
    rw [writeBytesAt]
    by_cases hin : 16 * m ≤ i ∧ i < 16 * m + (((padTo16 data).drop (16 * m)).take 16).length
    · rw [if_pos hin]
      rw [if_pos (by omega)]
      have hi16 : i - 16 * m < 16 := by omega
      rw [List.getD_eq_getElem?_getD, List.getD_eq_getElem?_getD]
      rw [List.getElem?_take, if_pos hi16, List.getElem?_drop]
      congr 2
      omega
    · rw [if_neg hin]
      rw [ih (by omega) q i]
      rw [hchunklen] at hin
      by_cases hlt : i < 16 * m
      · rw [if_pos hlt, if_pos (by omega)]
      · rw [if_neg hlt, if_neg (by omega)]

theorem statusWordBytes_length : statusWordBytes.length = 16 := by
  rw [statusWordBytes]
  rfl

theorem writeBytesAt_status_eval (Q : PageBytes) (i : Nat) (h1 : STATUS_OFFSET ≤ i)
    (h2 : i < STATUS_OFFSET + 16) :
    writeBytesAt STATUS_OFFSET statusWordBytes Q i =
      statusWordBytes.getD (i - STATUS_OFFSET) 0 := by
  rw [writeBytesAt]
  rw [if_pos ⟨h1, by rw [statusWordBytes_length]; omega⟩]

/-- C2 (amended): a power-cut at any point during `FlashEntry::set` leaves
the slot observable through `get()` as the prior contents (cut before the
erase), the empty state (cut after the erase but before the final status
write — in particular a prior occupant is already gone), or the new
contents (all operations done); never a partial object.  `set` erases the
page first, writes the object body next, and writes the validity magic
word last; `get()` returns `Some` iff the 4-byte status word at page
offset `FLASH_PAGE_SIZE - 16` equals the magic `0x11aa0055`. -/
theorem flash_set_powercut (data : List Nat) (p : PageBytes)
    (hlen : data.length < FLASH_PAGE_SIZE - 16) (k : Nat)
    (hk : k ≤ (setOps data).length) :
    (FlashEntry.get data.length (applyOps ((setOps data).take k) p) =
      if k = 0 then FlashEntry.get data.length p
      else if k = (setOps data).length then some data
      else none)
    ∧ ∀ q : PageBytes, (FlashEntry.get data.length q ≠ none ↔
        FlashEntry.status q = FLASH_ENTRY_MAGIC) := by
  constructor
  · have hops_len : (setOps data).length = (writeOps data).length + 2 := by
      simp [setOps]
    cases k with
    | zero => simp [applyOps]
    | succ j =>
      have hcons : (setOps data).take (j + 1) =
          erasePage :: (writeOps data ++
            [writeBytesAt STATUS_OFFSET statusWordBytes]).take j := by
        rw [setOps, List.cons_append, List.take_succ_cons]
      rw [hcons]
      have happ : applyOps (erasePage ::
          (writeOps data ++ [writeBytesAt STATUS_OFFSET statusWordBytes]).take j) p =
          applyOps ((writeOps data ++
            [writeBytesAt STATUS_OFFSET statusWordBytes]).take j) (erasePage p) := rfl
      rw [happ]
      by_cases hj : j ≤ (writeOps data).length
      · have hknot0 : ¬ (j + 1 = 0) := by omega
        have hknottot : ¬ (j + 1 = (setOps data).length) := by omega
        rw [List.take_append_of_le_length hj]
        have huntouched : ∀ i, STATUS_OFFSET ≤ i →
            applyOps ((writeOps data).take j) (erasePage p) i = erasePage p i := by
          intro i hi
          exact applyOps_untouched STATUS_OFFSET ((writeOps data).take j)
            (fun op hop => writeOps_untouched data hlen op (List.take_subset j _ hop))
            (erasePage p) i hi
        have hget : FlashEntry.get data.length
            (applyOps ((writeOps data).take j) (erasePage p)) = none := by
          have hstatus : FlashEntry.status
              (applyOps ((writeOps data).take j) (erasePage p)) = 4294967295 := by
            rw [FlashEntry.status]
            rw [huntouched STATUS_OFFSET (le_refl _),
              huntouched (STATUS_OFFSET + 1) (by omega),
              huntouched (STATUS_OFFSET + 2) (by omega),
              huntouched (STATUS_OFFSET + 3) (by omega)]
            have he : ∀ d : Nat, erasePage p d = 255 := fun d => rfl
            rw [he STATUS_OFFSET, he (STATUS_OFFSET + 1), he (STATUS_OFFSET + 2),
              he (STATUS_OFFSET + 3)]
          rw [FlashEntry.get, FlashEntry.has_object, hstatus]
          rw [if_neg (by rw [FLASH_ENTRY_MAGIC]; decide)]
        rw [hget, if_neg hknot0, if_neg hknottot]
      · have hj' : j = (writeOps data).length + 1 := by omega
        subst hj'
        have hcond1 : ¬ ((writeOps data).length + 1 + 1 = 0) := by omega
        have hcond2 : (writeOps data).length + 1 + 1 = (setOps data).length := by omega
        have htake : (writeOps data ++
            [writeBytesAt STATUS_OFFSET statusWordBytes]).take
              ((writeOps data).length + 1) =
            writeOps data ++ [writeBytesAt STATUS_OFFSET statusWordBytes] := by
          apply List.take_of_length_le
          simp
        rw [htake]
        rw [applyOps, List.foldl_append]
        simp only [List.foldl_cons, List.foldl_nil]
        have hn16 : 16 * ((padTo16 data).length / 16) = (padTo16 data).length := by
          have := padTo16_length_mod data
          omega
        have hdatapad : data.length ≤ (padTo16 data).length := by
          simp [padTo16]
        have hbody : ∀ i, (List.foldl (fun acc op => op acc) (erasePage p)
            (writeOps data)) i =
            if i < 16 * ((padTo16 data).length / 16) then (padTo16 data).getD i 0
            else erasePage p i := by
          intro i
          exact applyOps_range_map data ((padTo16 data).length / 16)
            (by omega) (erasePage p) i
        have hcond0 : (FLASH_ENTRY_MAGIC == FLASH_ENTRY_MAGIC) = true :=
          beq_self_eq_true _
        have hpoint : ∀ i, i < data.length →
            writeBytesAt STATUS_OFFSET statusWordBytes
              (List.foldl (fun acc op => op acc) (erasePage p) (writeOps data)) i =
            data.getD i 0 := by
          intro i hilen
          have hstat_i : i < STATUS_OFFSET := by
            rw [STATUS_OFFSET, FLASH_PAGE_SIZE]
            rw [FLASH_PAGE_SIZE] at hlen
            omega
          rw [writeBytesAt]
          have hcond3 : ¬ (STATUS_OFFSET ≤ i ∧
              i < STATUS_OFFSET + statusWordBytes.length) := by
            push_neg
            intro hcontra
            omega
          rw [if_neg hcond3]
          rw [hbody i]
          have hcond4 : i < 16 * ((padTo16 data).length / 16) := by omega
          rw [if_pos hcond4]
          rw [List.getD_eq_getElem?_getD, List.getD_eq_getElem?_getD, padTo16,
            List.getElem?_append_left hilen]
        have hstatus : FlashEntry.status
            (writeBytesAt STATUS_OFFSET statusWordBytes
              (List.foldl (fun acc op => op acc) (erasePage p) (writeOps data))) =
            FLASH_ENTRY_MAGIC := by
          rw [FlashEntry.status]
          rw [writeBytesAt_status_eval _ STATUS_OFFSET (le_refl _) (by omega),
            writeBytesAt_status_eval _ (STATUS_OFFSET + 1) (by omega) (by omega),
            writeBytesAt_status_eval _ (STATUS_OFFSET + 2) (by omega) (by omega),
            writeBytesAt_status_eval _ (STATUS_OFFSET + 3) (by omega) (by omega)]
          rw [show STATUS_OFFSET - STATUS_OFFSET = 0 from by omega,
            show STATUS_OFFSET + 1 - STATUS_OFFSET = 1 from by omega,
            show STATUS_OFFSET + 2 - STATUS_OFFSET = 2 from by omega,
            show STATUS_OFFSET + 3 - STATUS_OFFSET = 3 from by omega]
          rw [FLASH_ENTRY_MAGIC]
          decide
        rw [FlashEntry.get, FlashEntry.has_object, hstatus]
        clear hstatus
        rw [if_pos hcond0, if_neg hcond1, if_pos hcond2]
        congr 1
        apply List.ext_getElem
        · simp
        · intro i hi1 hi2
          simp only [List.getElem_map, List.getElem_range]
          have hilen : i < data.length := by simpa using hi1
          rw [hpoint i hilen]
          rw [List.getD_eq_getElem?_getD, List.getElem?_eq_getElem hilen]
          rfl
  · intro q
    rw [FlashEntry.get, FlashEntry.has_object]
    by_cases h : FlashEntry.status q = FLASH_ENTRY_MAGIC
    · simp [h]
    · simp [h]

/-- C2 counterexample: with a prior occupant (three `0xab` bytes, valid
magic), a power-cut right after the erase (the first of the three
operations of `set([1,2,3])`) leaves `get()` returning `none` — neither
the prior contents nor the new contents, so mid-`set` the slot is
observable only as empty. -/
theorem flash_set_midway_counterexample :
    FlashEntry.get 3 (writeBytesAt STATUS_OFFSET [0x55, 0, 0xaa, 0x11]
        (fun _ => 0xab)) = some [0xab, 0xab, 0xab]
    ∧ FlashEntry.get 3 (applyOps ((setOps [1, 2, 3]).take 1)
        (writeBytesAt STATUS_OFFSET [0x55, 0, 0xaa, 0x11] (fun _ => 0xab))) = none
    ∧ FlashEntry.get 3 (applyOps (setOps [1, 2, 3])
        (writeBytesAt STATUS_OFFSET [0x55, 0, 0xaa, 0x11] (fun _ => 0xab))) =
      some [1, 2, 3] := by
  refine ⟨?_, ?_, ?_⟩
  · norm_num [FlashEntry.get, FlashEntry.has_object, FlashEntry.status, writeBytesAt,
      statusWordBytes, STATUS_OFFSET, FLASH_PAGE_SIZE, FLASH_ENTRY_MAGIC]
    rfl
  · norm_num [FlashEntry.get, FlashEntry.has_object, FlashEntry.status, writeBytesAt,
      statusWordBytes, STATUS_OFFSET, FLASH_PAGE_SIZE, FLASH_ENTRY_MAGIC, setOps,
      applyOps, erasePage, writeOps, padTo16]
  · norm_num [FlashEntry.get, FlashEntry.has_object, FlashEntry.status, writeBytesAt,
      statusWordBytes, STATUS_OFFSET, FLASH_PAGE_SIZE, FLASH_ENTRY_MAGIC, setOps,
      applyOps, erasePage, writeOps, padTo16]
    rfl

/-- Witness for `flash_set_powercut`: the three-byte object `[1, 2, 3]` on a
previously occupied page, cut after one operation (the erase). -/
theorem flash_set_powercut_witness :
    (FlashEntry.get ([1, 2, 3] : List Nat).length
        (applyOps ((setOps [1, 2, 3]).take 1)
          (writeBytesAt STATUS_OFFSET [0x55, 0, 0xaa, 0x11] (fun _ => 0xab))) =
      if (1 : Nat) = 0 then
        FlashEntry.get ([1, 2, 3] : List Nat).length
          (writeBytesAt STATUS_OFFSET [0x55, 0, 0xaa, 0x11] (fun _ => 0xab))
      else if (1 : Nat) = (setOps [1, 2, 3]).length then some [1, 2, 3]
      else none)
    ∧ ∀ q : PageBytes, (FlashEntry.get ([1, 2, 3] : List Nat).length q ≠ none ↔
        FlashEntry.status q = FLASH_ENTRY_MAGIC) :=
  flash_set_powercut [1, 2, 3]
    (writeBytesAt STATUS_OFFSET [0x55, 0, 0xaa, 0x11] (fun _ => 0xab))
    (by norm_num [FLASH_PAGE_SIZE]) 1
    (by norm_num [setOps, writeOps, padTo16])

end Decoder
